import Mathlib

/-!
Shallow embedding of the transaction-construction core of the CrossChain-Bridge
ethereum adapter (`tokens/eth/buildtx.go`), together with proofs of the
specification's claims about it.

Modelling conventions:
* Go `*big.Int` values become `Option Int` (a `nil` pointer is `none`).
* Network calls (`GetBalance`, `GetErc20Balance`, `SuggestPrice`,
  `GetPoolNonce`) are oracles indexed by the attempt number, so that the retry
  loops are observable; every function that may touch the network also returns
  a trace of `Event`s (RPC calls, sleeps, nonce-sequencer calls).
* Go mutates the `args *BuildTxArgs` record through a pointer; here every
  function that mutates it returns the updated record alongside its result.
* External collaborators that are not part of the two source files
  (`common.HexToAddress`, `PackDataWithFuncHash`, `tokens.CalcSwappedValue`,
  `AdjustNonce`, `params.GetIdentifier`, the token-config registry) are
  modelled from the spec, as fields of the `Bridge` environment or as
  explicitly marked helper definitions.
-/

namespace Eth

/-- Modelled from the spec: value of one hexadecimal digit
(the `common` package is not in `src/`). -/
def hexDigitVal (c : Char) : Option Nat :=
  if '0' ≤ c ∧ c ≤ '9' then some (c.toNat - '0'.toNat)
  else if 'a' ≤ c ∧ c ≤ 'f' then some (c.toNat - 'a'.toNat + 10)
  else if 'A' ≤ c ∧ c ≤ 'F' then some (c.toNat - 'A'.toNat + 10)
  else none

/-- Modelled from the spec: is this character a hexadecimal digit. -/
def isHexChar (c : Char) : Bool :=
  (hexDigitVal c).isSome

/-- Modelled from the spec: drop a leading `0x`/`0X` marker. -/
def strip0x (s : String) : String :=
  match s.toList with
  | '0' :: 'x' :: rest => String.mk rest
  | '0' :: 'X' :: rest => String.mk rest
  | _ => s

/-- Modelled from the spec: `common.IsHexAddress` — syntactic validity of a
20-byte hex address string (40 hex digits after an optional `0x`). -/
def isHexAddress (s : String) : Bool :=
  let h := strip0x s
  h.length == 40 && h.toList.all isHexChar

/-- Modelled from the spec: numeric value of a hex string (non-digits count 0,
as the parse of an invalid string is irrelevant to every claim). -/
def hexVal (s : String) : Nat :=
  (strip0x s).toList.foldl (fun acc c => acc * 16 + (hexDigitVal c).getD 0) 0

/-- Modelled from the spec: `common.HexToAddress` — a 160-bit address value. -/
def hexToAddress (s : String) : Nat :=
  hexVal s % (2 ^ 160)

/-- Modelled from the spec: `common.HexToHash` — a 256-bit hash value. -/
def hexToHash (s : String) : Nat :=
  hexVal s % (2 ^ 256)

/-- The swap direction (`tokens.SwapType`): `NoSwapType`, `SwapinType`,
`SwapoutType`. -/
inductive SwapType where
  | noSwap
  | swapin
  | swapout
deriving DecidableEq, Repr

/-- The fixed function selectors used by the payload builders:
`getSwapinFuncHash()` for `Swapin(bytes32,address,uint256)` and
`erc20CodeParts["transfer"]` for `transfer(address,uint256)`.
Their byte values are external to `src/`; only their identity matters. -/
inductive FuncSel where
  | swapin
  | transfer
deriving DecidableEq, Repr

/-- One ABI-encoded argument word of a packed call. -/
inductive AbiWord where
  | hash (h : Nat)
  | addr (a : Nat)
  | num (v : Int)
deriving DecidableEq, Repr

/-- Byte strings appearing as transaction input data.  `pack` is
`PackDataWithFuncHash` (modelled from the spec as an injective constructor),
`unlockMemo s` is `[]byte(tokens.UnlockMemoPrefix + s)`, `raw` is arbitrary
caller-supplied data, `empty` is the nil byte slice. -/
inductive Bytes where
  | empty
  | raw (s : String)
  | pack (sel : FuncSel) (words : List AbiWord)
  | unlockMemo (swapID : String)
deriving DecidableEq, Repr

/-- `tokens.EthExtraArgs`: optional caller-supplied overrides. -/
structure EthExtraArgs where
  gasPrice : Option Int
  nonce : Option Nat
  gas : Option Nat
deriving DecidableEq, Repr

/-- `tokens.BuildTxArgs`, the build intent (the fields `buildtx.go` reads or
writes).  `fromAddr` is the Go field `From`. -/
structure BuildTxArgs where
  pairID : String
  swapID : String
  swapType : SwapType
  fromAddr : String
  toAddr : String
  bind : String
  value : Option Int
  originValue : Option Int
  input : Option Bytes
  extra : Option EthExtraArgs
  identifier : String
deriving DecidableEq, Repr

/-- `tokens.TokenConfig`, the per-pair configuration read during a build.
`isErc20` models the `IsErc20()` predicate (modelled from the spec:
"is token" flag / non-empty token contract address). -/
structure TokenConfig where
  contractAddress : String
  dcrmAddress : String
  isErc20 : Bool
  plusGasPricePercentage : Nat
  defaultGasLimit : Nat
deriving DecidableEq, Repr

/-- The final unsigned transaction record, `types.NewTransaction(nonce, to,
value, gasLimit, gasPrice, input)`.  `to` is the parsed 160-bit address. -/
structure Transaction where
  nonce : Nat
  toAddr : Nat
  value : Option Int
  gasLimit : Nat
  gasPrice : Option Int
  input : Bytes
deriving DecidableEq, Repr

/-- The errors the build can return.  `wrongEndpoint` is
`tokens.ErrBuildSwapTxInWrongEndpoint` (the spec's `DirectionError`),
`forbidRawSwapInput` is `"forbid build raw swap tx with input data"`,
`swapinInvalidAddress` / `swapoutInvalidAddress` are the
`"can not swapin/swapout to empty or invalid address"` validation errors,
`rpcError` is an exhausted-retries RPC error propagated verbatim,
`nilDeref` marks a Go nil-pointer dereference (unreachable in the pipeline). -/
inductive Err where
  | unknownPairID
  | wrongEndpoint
  | forbidRawSwapInput
  | swapinInvalidAddress
  | swapoutInvalidAddress
  | rpcError (msg : String)
  | getBalanceFailed (acct : String) (msg : String)
  | notEnoughTokenBalance (got need : Int)
  | notEnoughCoinBalance (got : Int) (value gasFee : Option Int)
  | nilDeref
deriving DecidableEq, Repr

/-- The four network operations wrapped by the retry loops. -/
inductive RPCOp where
  | getBalance
  | getErc20Balance
  | suggestPrice
  | getPoolNonce
deriving DecidableEq, Repr

/-- Observable events of a build: a network call (with its attempt index),
a `time.Sleep`, and a call of the nonce sequencer `AdjustNonce`. -/
inductive Event where
  | rpc (op : RPCOp) (attempt : Nat)
  | sleep (seconds : Nat)
  | adjust (pairID : String) (nonce : Nat)
deriving DecidableEq, Repr

/-- Is this event a nonce-sequencer call. -/
def Event.isAdjust : Event → Bool
  | .adjust _ _ => true
  | _ => false

/-- `retryRPCCount = 3` -/
def retryRPCCount : Nat := 3

/-- `retryRPCInterval = 1 * time.Second`, in seconds. -/
def retryRPCInterval : Nat := 1

/-- `defReserveGasFee = big.NewInt(1e16)` -/
def defReserveGasFee : Int := 10 ^ 16

/-- `defGasLimit = uint64(90000)` -/
def defGasLimit : Nat := 90000

/-- The environment a `Bridge` runs in: the endpoint role flag `IsSrc`, the
token-config registry, and the external collaborators.  The RPC oracles take
the attempt index, so that each retry may observe a different outcome. -/
structure Bridge where
  isSrc : Bool
  getTokenConfig : String → Option TokenConfig
  calcSwappedValue : String → Option Int → Bool → Int
  adjustNonce : String → Nat → Nat
  identifier : String
  balanceRPC : String → Nat → Except String Int
  erc20BalanceRPC : String → String → Nat → Except String Int
  suggestPriceRPC : Nat → Except String Int
  poolNonceRPC : String → Nat → Except String Nat

/-- The retry loop body shared by `getBalance`, `getErc20Balance`,
`getGasPrice`, `getAccountNonce` and `checkTokenBalance`:
`for i := 0; i < retryRPCCount; i++ { res, err = call(); if err == nil
{ return res, nil }; time.Sleep(retryRPCInterval) }; return nil, err`.
`i` is the next attempt index, `k` the remaining attempts, `e` the error of
the last failed attempt. -/
def retryGo {α : Type} (op : RPCOp) (f : Nat → Except String α) :
    Nat → Nat → String → Except String α × List Event
  | _, 0, e => (Except.error e, [])
  | i, k + 1, _ =>
    match f i with
    | Except.ok v => (Except.ok v, [Event.rpc op i])
    | Except.error e =>
      let r := retryGo op f (i + 1) k e
      (r.1, Event.rpc op i :: Event.sleep retryRPCInterval :: r.2)

/-- A full retried RPC operation: `retryRPCCount` attempts starting at 0. -/
def retryRPC {α : Type} (op : RPCOp) (f : Nat → Except String α) :
    Except String α × List Event :=
  retryGo op f 0 retryRPCCount ""

/-- `func (b *Bridge) getBalance(account string)` (lines 165-174). -/
def getBalance (b : Bridge) (account : String) : Except String Int × List Event :=
  retryRPC RPCOp.getBalance (b.balanceRPC account)

/-- `func (b *Bridge) getErc20Balance(erc20Addr, account string)`
(lines 176-185). -/
def getErc20Balance (b : Bridge) (erc20Addr account : String) :
    Except String Int × List Event :=
  retryRPC RPCOp.getErc20Balance (b.erc20BalanceRPC erc20Addr account)

/-- `func (b *Bridge) getGasPrice()` (lines 198-207). -/
def getGasPrice (b : Bridge) : Except String Int × List Event :=
  retryRPC RPCOp.suggestPrice b.suggestPriceRPC

/-- `func (b *Bridge) getDefaultGasLimit(pairID string)` (lines 187-196). -/
def getDefaultGasLimit (b : Bridge) (pairID : String) : Nat :=
  let gasLimit :=
    match b.getTokenConfig pairID with
    | some tokenCfg => tokenCfg.defaultGasLimit
    | none => 0
  if gasLimit = 0 then defGasLimit else gasLimit

/-- `func (b *Bridge) getAccountNonce(pairID, from string, swapType)`
(lines 209-228): fetch the pending nonce with retries; for a swap build whose
sender is the pair's custodial (`Dcrm`) address, route it through the nonce
sequencer `AdjustNonce`. -/
def getAccountNonce (b : Bridge) (pairID fromA : String) (swapType : SwapType) :
    Except String Nat × List Event :=
  match retryRPC RPCOp.getPoolNonce (b.poolNonceRPC fromA) with
  | (Except.error e, tr) => (Except.error e, tr)
  | (Except.ok nonce, tr) =>
    if swapType ≠ SwapType.noSwap then
      match b.getTokenConfig pairID with
      | some tokenCfg =>
        if fromA = tokenCfg.dcrmAddress then
          (Except.ok (b.adjustNonce pairID nonce), tr ++ [Event.adjust pairID nonce])
        else (Except.ok nonce, tr)
      | none => (Except.ok nonce, tr)
    else (Except.ok nonce, tr)

/-- `func (b *Bridge) buildSwapinTxInput(args)` (lines 231-251): validate the
bind address, encode `Swapin(txhash, account, amount)` into `args.Input`, set
`args.To` to the token contract address. -/
def buildSwapinTxInput (b : Bridge) (args : BuildTxArgs) :
    Except Err Unit × BuildTxArgs :=
  let txHash := hexToHash args.swapID
  let address := hexToAddress args.bind
  if address = 0 || !(isHexAddress args.bind) then
    (Except.error Err.swapinInvalidAddress, args)
  else
    let amount := b.calcSwappedValue args.pairID args.originValue true
    let input := Bytes.pack FuncSel.swapin
      [AbiWord.hash txHash, AbiWord.addr address, AbiWord.num amount]
    let args1 := { args with input := some input }
    match b.getTokenConfig args.pairID with
    | none => (Except.error Err.unknownPairID, args1)
    | some token =>
      (Except.ok (), { args1 with toAddr := token.contractAddress })

/-- `func (b *Bridge) checkTokenBalance(token, from string, value)`
(lines 274-290). -/
def checkTokenBalance (b : Bridge) (token fromA : String) (value : Int) :
    Except Err Unit × List Event :=
  match retryRPC RPCOp.getErc20Balance (b.erc20BalanceRPC token fromA) with
  | (Except.error e, tr) => (Except.error (Err.rpcError e), tr)
  | (Except.ok balance, tr) =>
    if balance < value then
      (Except.error (Err.notEnoughTokenBalance balance value), tr)
    else (Except.ok (), tr)

/-- `func (b *Bridge) buildErc20SwapoutTxInput(args)` (lines 253-272): validate
the bind address, encode `transfer(account, amount)` into `args.Input`, set
`args.To`, then check the custodial signer's token balance.  Note `args.Input`
and `args.To` are committed before the balance check. -/
def buildErc20SwapoutTxInput (b : Bridge) (args : BuildTxArgs) :
    Except Err Unit × BuildTxArgs × List Event :=
  let address := hexToAddress args.bind
  if address = 0 || !(isHexAddress args.bind) then
    (Except.error Err.swapoutInvalidAddress, args, [])
  else
    let amount := b.calcSwappedValue args.pairID args.originValue false
    let input := Bytes.pack FuncSel.transfer
      [AbiWord.addr address, AbiWord.num amount]
    let args1 := { args with input := some input }
    match b.getTokenConfig args.pairID with
    | none => (Except.error Err.unknownPairID, args1, [])
    | some token =>
      let args2 := { args1 with toAddr := token.contractAddress }
      let r := checkTokenBalance b token.contractAddress token.dcrmAddress amount
      (r.1, args2, r.2)

/-- The contribution of one optional amount to `needValue` in
`checkCoinBalance`: added only when positive (`Sign() > 0`), zero when the
pointer is nil. -/
def posPart : Option Int → Int
  | some v => if 0 < v then v else 0
  | none => 0

/-- `func (b *Bridge) checkCoinBalance(from string, value, gasFee *big.Int)`
(lines 292-309): `needValue` accumulates the positive parts of `value` and
`gasFee` (`Sign() > 0`); fail when the fetched balance is below it. -/
def checkCoinBalance (b : Bridge) (fromA : String) (value gasFee : Option Int) :
    Except Err Unit × List Event :=
  match getBalance b fromA with
  | (Except.error e, tr) => (Except.error (Err.getBalanceFailed fromA e), tr)
  | (Except.ok balance, tr) =>
    if balance < posPart value + posPart gasFee then
      (Except.error (Err.notEnoughCoinBalance balance value gasFee), tr)
    else (Except.ok (), tr)

/-- Gas-price resolution step of `setDefaults` (lines 134-151): when unset,
fetch the suggested price; for swap builds apply the pair's markup
`price = price * (100 + addPercent) / 100` (Go `big.Int.Div`, i.e. floor
division, hence `Int.fdiv`).  Returns the updated `extra` even on the failure
path on which `extra.GasPrice` was already assigned. -/
def resolveGasPrice (b : Bridge) (args : BuildTxArgs) (extra : EthExtraArgs) :
    Except Err Unit × EthExtraArgs × List Event :=
  match extra.gasPrice with
  | some _ => (Except.ok (), extra, [])
  | none =>
    match getGasPrice b with
    | (Except.error e, tr) => (Except.error (Err.rpcError e), extra, tr)
    | (Except.ok price, tr) =>
      if args.swapType = SwapType.noSwap then
        (Except.ok (), { extra with gasPrice := some price }, tr)
      else
        match b.getTokenConfig args.pairID with
        | none =>
          (Except.error Err.unknownPairID, { extra with gasPrice := some price }, tr)
        | some tokenCfg =>
          let addPercent := tokenCfg.plusGasPricePercentage
          let price' :=
            if 0 < addPercent then
              Int.fdiv (price * (100 + (addPercent : Int))) 100
            else price
          (Except.ok (), { extra with gasPrice := some price' }, tr)

/-- Nonce resolution step of `setDefaults` (lines 152-157). -/
def resolveNonce (b : Bridge) (args : BuildTxArgs) (extra : EthExtraArgs) :
    Except Err Unit × EthExtraArgs × List Event :=
  match extra.nonce with
  | some _ => (Except.ok (), extra, [])
  | none =>
    match getAccountNonce b args.pairID args.fromAddr args.swapType with
    | (Except.error e, tr) => (Except.error (Err.rpcError e), extra, tr)
    | (Except.ok n, tr) => (Except.ok (), { extra with nonce := some n }, tr)

/-- `func (b *Bridge) setDefaults(args)` (lines 124-163): default `args.Value`
to zero, materialize `args.Extra.EthExtra`, then resolve gas price, nonce and
gas limit in that order.  In Go `extra` aliases `args.Extra.EthExtra`, so the
returned intent always carries the current `extra`. -/
def setDefaults (b : Bridge) (args0 : BuildTxArgs) :
    Except Err EthExtraArgs × BuildTxArgs × List Event :=
  let args1 :=
    if args0.value.isNone then { args0 with value := some (0 : Int) } else args0
  let extra0 := args1.extra.getD ⟨none, none, none⟩
  match resolveGasPrice b args1 extra0 with
  | (Except.error e, ex, tr) => (Except.error e, { args1 with extra := some ex }, tr)
  | (Except.ok _, ex1, tr1) =>
    match resolveNonce b args1 ex1 with
    | (Except.error e, ex, tr2) =>
      (Except.error e, { args1 with extra := some ex }, tr1 ++ tr2)
    | (Except.ok _, ex2, tr2) =>
      let ex3 :=
        if ex2.gas.isNone then
          { ex2 with gas := some (getDefaultGasLimit b args1.pairID) }
        else ex2
      (Except.ok ex3, { args1 with extra := some ex3 }, tr1 ++ tr2)

/-- `func (b *Bridge) buildTx(args, extra, input)` (lines 79-122): override the
value for a native-coin swapout, stamp the identifier on swap builds, take the
fixed reserve fee for swap builds (or `gasPrice * gasLimit` otherwise), check
the coin balance, and assemble the transaction.  `nilDeref` marks the Go
nil-pointer dereferences (`*extra.Nonce`, `*extra.Gas`, `Mul` on a nil gas
price), none of which is reachable from `BuildRawTransaction`. -/
def buildTx (b : Bridge) (args0 : BuildTxArgs) (extra : EthExtraArgs)
    (input : Bytes) : Except Err Transaction × BuildTxArgs × List Event :=
  match extra.nonce, extra.gas with
  | some nonce, some gasLimit =>
    let toParsed := hexToAddress args0.toAddr
    match (if args0.swapType = SwapType.swapout then
             match b.getTokenConfig args0.pairID with
             | none => none
             | some tokenCfg =>
               some (if tokenCfg.isErc20 then args0.value
                     else some (b.calcSwappedValue args0.pairID args0.originValue false))
           else some args0.value) with
    | none => (Except.error Err.unknownPairID, args0, [])
    | some value =>
      let args1 :=
        if args0.swapType ≠ SwapType.noSwap then
          { args0 with identifier := b.identifier }
        else args0
      match (if args1.swapType = SwapType.noSwap then
               extra.gasPrice.map (fun gp => gp * (gasLimit : Int))
             else some defReserveGasFee) with
      | none => (Except.error Err.nilDeref, args1, [])
      | some gasFee =>
        match checkCoinBalance b args1.fromAddr value (some gasFee) with
        | (Except.error e, tr) => (Except.error e, args1, tr)
        | (Except.ok _, tr) =>
          (Except.ok ⟨nonce, toParsed, value, gasLimit, extra.gasPrice, input⟩,
           args1, tr)
  | _, _ => (Except.error Err.nilDeref, args0, [])

/-- The tail of `BuildRawTransaction` (lines 71-76): `setDefaults` then
`buildTx`. -/
def finishBuild (b : Bridge) (args : BuildTxArgs) (input : Bytes) :
    Except Err Transaction × BuildTxArgs × List Event :=
  match setDefaults b args with
  | (Except.error e, args1, tr) => (Except.error e, args1, tr)
  | (Except.ok extra, args1, tr) =>
    let r := buildTx b args1 extra input
    (r.1, r.2.1, tr ++ r.2.2)

/-- `func (b *Bridge) BuildRawTransaction(args)` (lines 25-77).  For a swap
build with no caller-supplied input: fetch the pair config, default an empty
sender to the custodial address, check the direction against the endpoint
role, build the direction-specific payload, then finish.  A caller-supplied
input is forbidden together with a swap direction. -/
def buildRawTransaction (b : Bridge) (args0 : BuildTxArgs) :
    Except Err Transaction × BuildTxArgs × List Event :=
  match args0.input with
  | some inp =>
    if args0.swapType ≠ SwapType.noSwap then
      (Except.error Err.forbidRawSwapInput, args0, [])
    else finishBuild b args0 inp
  | none =>
    match args0.swapType with
    | SwapType.noSwap => finishBuild b args0 Bytes.empty
    | SwapType.swapin =>
      match b.getTokenConfig args0.pairID with
      | none => (Except.error Err.unknownPairID, args0, [])
      | some tokenCfg =>
        let args1 :=
          if args0.fromAddr = "" then { args0 with fromAddr := tokenCfg.dcrmAddress }
          else args0
        if b.isSrc then (Except.error Err.wrongEndpoint, args1, [])
        else
          match buildSwapinTxInput b args1 with
          | (Except.error e, args2) => (Except.error e, args2, [])
          | (Except.ok _, args2) =>
            match args2.input with
            | none => (Except.error Err.nilDeref, args2, [])
            | some inp => finishBuild b args2 inp
    | SwapType.swapout =>
      match b.getTokenConfig args0.pairID with
      | none => (Except.error Err.unknownPairID, args0, [])
      | some tokenCfg =>
        let args1 :=
          if args0.fromAddr = "" then { args0 with fromAddr := tokenCfg.dcrmAddress }
          else args0
        if !b.isSrc then (Except.error Err.wrongEndpoint, args1, [])
        else if tokenCfg.isErc20 then
          match buildErc20SwapoutTxInput b args1 with
          | (Except.error e, args2, tr) => (Except.error e, args2, tr)
          | (Except.ok _, args2, tr) =>
            match args2.input with
            | none => (Except.error Err.nilDeref, args2, tr)
            | some inp =>
              let r := finishBuild b args2 inp
              (r.1, r.2.1, tr ++ r.2.2)
        else
          let args2 := { args1 with toAddr := args1.bind }
          finishBuild b args2 (Bytes.unlockMemo args1.swapID)


/-- The trace of `i` failed attempts of a retried operation, each followed by
the fixed one-second sleep (used to state the retry-policy claim). -/
def failedAttempts (op : RPCOp) : Nat → List Event
  | 0 => []
  | i + 1 => failedAttempts op i ++ [Event.rpc op i, Event.sleep retryRPCInterval]

/-! ## Concrete test fixtures -/

/-- A syntactically valid, non-zero bind address (decimal value 161). -/
def wBind : String := "00000000000000000000000000000000000000a1"

/-- A token pair: ERC20 contract, 10% gas markup, no configured gas limit. -/
def wCfgTok : TokenConfig :=
  { contractAddress := "00000000000000000000000000000000000000c1"
  , dcrmAddress := "00000000000000000000000000000000000000d1"
  , isErc20 := true
  , plusGasPricePercentage := 10
  , defaultGasLimit := 0 }

/-- A native-coin pair: no contract, no markup, configured gas limit 60000. -/
def wCfgCoin : TokenConfig :=
  { contractAddress := ""
  , dcrmAddress := "00000000000000000000000000000000000000d1"
  , isErc20 := false
  , plusGasPricePercentage := 0
  , defaultGasLimit := 60000 }

/-- A registry knowing the pairs `tok` and `coin`. -/
def wRegistry : String → Option TokenConfig := fun p =>
  if p = "tok" then some wCfgTok
  else if p = "coin" then some wCfgCoin
  else none

/-- A concrete bridge environment with always-succeeding oracles. -/
def wBridge (src : Bool) (suggested balance tokBalance : Int) : Bridge :=
  { isSrc := src
  , getTokenConfig := wRegistry
  , calcSwappedValue := fun _ ov _ => ov.getD 0
  , adjustNonce := fun _ n => n + 100
  , identifier := "swaprouter"
  , balanceRPC := fun _ _ => Except.ok balance
  , erc20BalanceRPC := fun _ _ _ => Except.ok tokBalance
  , suggestPriceRPC := fun _ => Except.ok suggested
  , poolNonceRPC := fun _ _ => Except.ok 7 }

/-- Destination-endpoint bridge (SwapIn side). -/
def wBridgeDst : Bridge := wBridge false 100 (10 ^ 17) (10 ^ 9)

/-- Origin-endpoint bridge (SwapOut side). -/
def wBridgeSrc : Bridge := wBridge true 100 (10 ^ 17) (10 ^ 9)

/-- Origin-endpoint bridge whose custodial token balance is too small. -/
def wBridgeSrcPoor : Bridge := wBridge true 100 (10 ^ 17) 1

/-- A swap-in build intent on the `tok` pair. -/
def wArgs : BuildTxArgs :=
  { pairID := "tok", swapID := "0xabc", swapType := SwapType.swapin
  , fromAddr := "00000000000000000000000000000000000000aa"
  , toAddr := "", bind := wBind, value := none, originValue := some 50
  , input := none, extra := none, identifier := "" }

/-- A swap-out build intent on the native-coin pair. -/
def wArgsCoin : BuildTxArgs :=
  { wArgs with pairID := "coin", swapType := SwapType.swapout }

/-- A swap-out build intent on the token pair. -/
def wArgsTok : BuildTxArgs :=
  { wArgs with swapType := SwapType.swapout }

/-- An oracle succeeding at the second attempt. -/
def wF : Nat → Except String Int := fun i =>
  if i = 1 then Except.ok 5 else Except.error "boom"

/-- An oracle that always fails. -/
def wFbad : Nat → Except String Int := fun _ => Except.error "down"

/-- The transaction produced by the successful swap-in build of the witness. -/
def wTx1 : Transaction :=
  { nonce := 7, toAddr := 193, value := some 0, gasLimit := 90000
  , gasPrice := some 110
  , input := Bytes.pack FuncSel.swapin
      [AbiWord.hash 2748, AbiWord.addr 161, AbiWord.num 50] }

/-- The intent as committed by that successful swap-in build. -/
def wArgs1 : BuildTxArgs :=
  { wArgs with
    toAddr := "00000000000000000000000000000000000000c1"
  , value := some 0
  , input := some (Bytes.pack FuncSel.swapin
      [AbiWord.hash 2748, AbiWord.addr 161, AbiWord.num 50])
  , extra := some { gasPrice := some 110, nonce := some 7, gas := some 90000 }
  , identifier := "swaprouter" }

/-- The event trace of that successful swap-in build. -/
def wTr1 : List Event :=
  [Event.rpc RPCOp.suggestPrice 0, Event.rpc RPCOp.getPoolNonce 0,
   Event.rpc RPCOp.getBalance 0]

/-- The intent as left behind by the token-swap-out build that fails its
token-balance check: payload and recipient already committed. -/
def wArgsTok3 : BuildTxArgs :=
  { wArgsTok with
    toAddr := "00000000000000000000000000000000000000c1"
  , input := some (Bytes.pack FuncSel.transfer [AbiWord.addr 161, AbiWord.num 50]) }

/-- The transaction produced by the successful native-coin swap-out build of
the witness: the value is the converter amount, not the caller value. -/
def wTx10 : Transaction :=
  { nonce := 7, toAddr := 161, value := some 50, gasLimit := 60000
  , gasPrice := some 100, input := Bytes.unlockMemo "0xabc" }

/-- The intent as committed by that successful native-coin swap-out build. -/
def wArgs10 : BuildTxArgs :=
  { wArgsCoin with
    toAddr := wBind
  , value := some 0
  , extra := some { gasPrice := some 100, nonce := some 7, gas := some 60000 }
  , identifier := "swaprouter" }

/-- The gas price after the markup step of `setDefaults` (lines 145-149): the
pair's percentage is applied only when positive, with Go `big.Int.Div`
(floor division). -/
def markedUpPrice (cfg : TokenConfig) (suggested : Int) : Int :=
  if 0 < cfg.plusGasPricePercentage then
    Int.fdiv (suggested * (100 + (cfg.plusGasPricePercentage : Int))) 100
  else suggested

/-! ## Basic lemmas about the retry loop and the resolution stages -/

/-- The retry loop emits only network-call and sleep events, never a
nonce-sequencer event. -/
theorem retryGo_filter_adjust {α : Type} (op : RPCOp) (f : Nat → Except String α) :
    ∀ i k e, ((retryGo op f i k e).2).filter Event.isAdjust = [] := by
  intro i k
  induction k generalizing i with
  | zero => intro e; rfl
  | succ k ih =>
    intro e
    unfold retryGo
    cases hf : f i with
    | ok v => simp [Event.isAdjust]
    | error e' => simp [Event.isAdjust, ih]

/-- The trace of a full retried RPC call holds no nonce-sequencer event. -/
theorem retryRPC_filter_adjust {α : Type} (op : RPCOp) (f : Nat → Except String α) :
    ((retryRPC op f).2).filter Event.isAdjust = [] :=
  retryGo_filter_adjust op f 0 retryRPCCount ""

/-- `resolveNonce` never changes the gas price field. -/
theorem resolveNonce_gasPrice (b : Bridge) (a : BuildTxArgs) (extra : EthExtraArgs) :
    ((resolveNonce b a extra).2.1).gasPrice = extra.gasPrice := by
  unfold resolveNonce
  split
  · rfl
  · split <;> rfl

/-- The intent returned by `setDefaults` is the original intent with the value
defaulted to zero and some resolved extra record committed; every other field
is unchanged. -/
theorem setDefaults_args_eq (b : Bridge) (a : BuildTxArgs) :
    ∃ ex, (setDefaults b a).2.1 =
      { a with value := some (a.value.getD 0), extra := some ex } := by
  unfold setDefaults
  by_cases hv : a.value.isNone
  · rw [Option.isNone_iff_eq_none] at hv
    simp only [hv, Option.isNone_none, if_true, Option.getD_none]
    split
    · exact ⟨_, rfl⟩
    · split
      · exact ⟨_, rfl⟩
      · exact ⟨_, rfl⟩
  · rw [Option.isNone_iff_eq_none] at hv
    simp only [Option.isNone_iff_eq_none, hv, if_false]
    have hg : some (a.value.getD 0) = a.value := by
      cases hval : a.value with
      | none => exact absurd hval hv
      | some v => simp [hval]
    rw [hg]
    split
    · exact ⟨_, rfl⟩
    · split
      · exact ⟨_, rfl⟩
      · exact ⟨_, rfl⟩

/-- A successful `finishBuild` decomposes into a successful `setDefaults`
followed by a successful `buildTx` on the updated intent. -/
theorem finishBuild_ok (b : Bridge) (a : BuildTxArgs) (inp : Bytes)
    (tx : Transaction) (h : (finishBuild b a inp).1 = Except.ok tx) :
    ∃ ex, (setDefaults b a).1 = Except.ok ex ∧
      (buildTx b (setDefaults b a).2.1 ex inp).1 = Except.ok tx := by
  unfold finishBuild at h
  split at h
  · simp at h
  · next extra args1 tr heq =>
    refine ⟨extra, ?_, ?_⟩
    · rw [heq]
    · have h21 : (setDefaults b a).2.1 = args1 := by rw [heq]
      rw [h21]
      simpa using h


/-- A successful `buildTx` assembles the transaction from the resolved fields:
the input bytes pass through unchanged, the recipient is the parsed `args.To`
address, and the value is the caller value except on a native-coin swapout,
where it is the converter's out-of-destination amount. -/
theorem buildTx_ok_fields (b : Bridge) (a : BuildTxArgs) (ex : EthExtraArgs)
    (inp : Bytes) (tx : Transaction)
    (h : (buildTx b a ex inp).1 = Except.ok tx) :
    tx.input = inp ∧ tx.toAddr = hexToAddress a.toAddr ∧
    tx.gasPrice = ex.gasPrice ∧ ex.nonce = some tx.nonce ∧
    ex.gas = some tx.gasLimit ∧
    (a.swapType = SwapType.swapout →
      ∃ cfg, b.getTokenConfig a.pairID = some cfg ∧
        (cfg.isErc20 = true → tx.value = a.value) ∧
        (cfg.isErc20 = false →
          tx.value = some (b.calcSwappedValue a.pairID a.originValue false))) ∧
    (a.swapType ≠ SwapType.swapout → tx.value = a.value) := by
  unfold buildTx at h
  split at h
  · rename_i nonce gasLimit hnn hgg
    try dsimp only at h
    split at h
    · simp at h
    · rename_i value hval
      try dsimp only at h
      split at h
      · simp at h
      · split at h
        · simp at h
        · simp only [Except.ok.injEq] at h
          subst h
          refine ⟨rfl, rfl, rfl, hnn, hgg, ?_, ?_⟩
          · intro hsw
            rw [if_pos hsw] at hval
            cases hc : b.getTokenConfig a.pairID with
            | none => rw [hc] at hval; simp at hval
            | some cfg =>
              rw [hc] at hval
              simp only [Option.some.injEq] at hval
              refine ⟨cfg, rfl, ?_, ?_⟩
              · intro he; rw [he] at hval; simp at hval; exact hval.symm
              · intro he; rw [he] at hval; simp at hval; exact hval.symm
          · intro hsw
            rw [if_neg hsw] at hval
            simp only [Option.some.injEq] at hval
            exact hval.symm
  · simp at h
/-- Projections of the intent returned by `setDefaults`. -/
theorem setDefaults_proj (b : Bridge) (a : BuildTxArgs) :
    ((setDefaults b a).2.1).pairID = a.pairID ∧
    ((setDefaults b a).2.1).swapID = a.swapID ∧
    ((setDefaults b a).2.1).swapType = a.swapType ∧
    ((setDefaults b a).2.1).fromAddr = a.fromAddr ∧
    ((setDefaults b a).2.1).toAddr = a.toAddr ∧
    ((setDefaults b a).2.1).bind = a.bind ∧
    ((setDefaults b a).2.1).originValue = a.originValue ∧
    ((setDefaults b a).2.1).input = a.input ∧
    ((setDefaults b a).2.1).value = some (a.value.getD 0) := by
  obtain ⟨ex, hex⟩ := setDefaults_args_eq b a
  rw [hex]
  exact ⟨rfl, rfl, rfl, rfl, rfl, rfl, rfl, rfl, rfl⟩

/-- `buildSwapinTxInput` fails only on an invalid bind address (leaving the
intent untouched) or on an unknown pair. -/
theorem buildSwapinTxInput_err (b : Bridge) (a : BuildTxArgs) (err : Err)
    (a' : BuildTxArgs) (h : buildSwapinTxInput b a = (Except.error err, a')) :
    (err = Err.swapinInvalidAddress ∧ a' = a) ∨
    (err = Err.unknownPairID ∧ b.getTokenConfig a.pairID = none) := by
  unfold buildSwapinTxInput at h
  try dsimp only at h
  by_cases hcond : (decide (hexToAddress a.bind = 0) || !isHexAddress a.bind) = true
  · rw [if_pos hcond] at h
    simp only [Prod.mk.injEq, Except.error.injEq] at h
    exact Or.inl ⟨h.1.symm, h.2.symm⟩
  · rw [if_neg hcond] at h
    cases hc : b.getTokenConfig a.pairID with
    | none =>
      rw [hc] at h
      simp only [Prod.mk.injEq, Except.error.injEq] at h
      exact Or.inr ⟨h.1.symm, rfl⟩
    | some token =>
      rw [hc] at h
      simp at h

/-- `checkTokenBalance` fails only with an exhausted-retries RPC error or an
insufficient-token-balance error carrying the requested amount. -/
theorem checkTokenBalance_err (b : Bridge) (token fromA : String) (v : Int)
    (err : Err) (h : (checkTokenBalance b token fromA v).1 = Except.error err) :
    (∃ s, err = Err.rpcError s) ∨ (∃ g, err = Err.notEnoughTokenBalance g v) := by
  unfold checkTokenBalance at h
  cases hr : retryRPC RPCOp.getErc20Balance (b.erc20BalanceRPC token fromA) with
  | mk r tr =>
    rw [hr] at h
    cases r with
    | error e =>
      try dsimp only at h
      simp only [Except.error.injEq] at h
      exact Or.inl ⟨_, h.symm⟩
    | ok balance =>
      try dsimp only at h
      by_cases hlt : balance < v
      · rw [if_pos hlt] at h
        try dsimp only at h
        simp only [Except.error.injEq] at h
        exact Or.inr ⟨_, h.symm⟩
      · rw [if_neg hlt] at h
        simp at h

/-- Full error characterization of `buildErc20SwapoutTxInput`: an invalid bind
address leaves the intent untouched; an unknown pair can only be reported when
the registry really lacks the pair; and on any later failure (RPC exhaustion
or insufficient token balance) the payload and recipient have already been
committed to the intent. -/
theorem buildErc20_err (b : Bridge) (a : BuildTxArgs) (err : Err)
    (a' : BuildTxArgs) (tr : List Event)
    (h : buildErc20SwapoutTxInput b a = (Except.error err, a', tr)) :
    (err = Err.swapoutInvalidAddress ∧ a' = a) ∨
    (err = Err.unknownPairID ∧ b.getTokenConfig a.pairID = none) ∨
    (((∃ s, err = Err.rpcError s) ∨
      (∃ g, err = Err.notEnoughTokenBalance g
              (b.calcSwappedValue a.pairID a.originValue false))) ∧
     (∃ cfg, b.getTokenConfig a.pairID = some cfg ∧
        a' = { a with
               input := some (Bytes.pack FuncSel.transfer
                 [AbiWord.addr (hexToAddress a.bind),
                  AbiWord.num (b.calcSwappedValue a.pairID a.originValue false)]),
               toAddr := cfg.contractAddress })) := by
  unfold buildErc20SwapoutTxInput at h
  try dsimp only at h
  by_cases hcond : (decide (hexToAddress a.bind = 0) || !isHexAddress a.bind) = true
  · rw [if_pos hcond] at h
    simp only [Prod.mk.injEq, Except.error.injEq] at h
    exact Or.inl ⟨h.1.symm, h.2.1.symm⟩
  · rw [if_neg hcond] at h
    cases hc : b.getTokenConfig a.pairID with
    | none =>
      rw [hc] at h
      simp only [Prod.mk.injEq, Except.error.injEq] at h
      exact Or.inr (Or.inl ⟨h.1.symm, rfl⟩)
    | some token =>
      rw [hc] at h
      try dsimp only at h
      simp only [Prod.mk.injEq] at h
      refine Or.inr (Or.inr ⟨?_, token, rfl, h.2.1.symm⟩)
      exact checkTokenBalance_err b token.contractAddress token.dcrmAddress _ err h.1

/-- `resolveGasPrice` fails only with an RPC error or an unknown pair. -/
theorem resolveGasPrice_err (b : Bridge) (a : BuildTxArgs) (extra : EthExtraArgs)
    (err : Err) (h : (resolveGasPrice b a extra).1 = Except.error err) :
    (∃ s, err = Err.rpcError s) ∨
    (err = Err.unknownPairID ∧ b.getTokenConfig a.pairID = none) := by
  unfold resolveGasPrice at h
  cases hgp : extra.gasPrice with
  | some p => rw [hgp] at h; simp at h
  | none =>
    rw [hgp] at h
    try dsimp only at h
    cases hs : getGasPrice b with
    | mk r tr =>
      rw [hs] at h
      cases r with
      | error e =>
        try dsimp only at h
        simp only [Except.error.injEq] at h
        exact Or.inl ⟨_, h.symm⟩
      | ok price =>
        try dsimp only at h
        by_cases hty : a.swapType = SwapType.noSwap
        · rw [if_pos hty] at h
          simp at h
        · rw [if_neg hty] at h
          cases hc : b.getTokenConfig a.pairID with
          | none =>
            rw [hc] at h
            try dsimp only at h
            simp only [Except.error.injEq] at h
            exact Or.inr ⟨h.symm, rfl⟩
          | some cfg =>
            rw [hc] at h
            simp at h

/-- `resolveNonce` fails only with an RPC error. -/
theorem resolveNonce_err (b : Bridge) (a : BuildTxArgs) (extra : EthExtraArgs)
    (err : Err) (h : (resolveNonce b a extra).1 = Except.error err) :
    ∃ s, err = Err.rpcError s := by
  unfold resolveNonce at h
  cases hn : extra.nonce with
  | some n => rw [hn] at h; simp at h
  | none =>
    rw [hn] at h
    try dsimp only at h
    cases hg : getAccountNonce b a.pairID a.fromAddr a.swapType with
    | mk r tr =>
      rw [hg] at h
      cases r with
      | error e =>
        try dsimp only at h
        simp only [Except.error.injEq] at h
        exact ⟨_, h.symm⟩
      | ok n =>
        simp at h

/-- `setDefaults` fails only with an RPC error or an unknown pair. -/
theorem setDefaults_err_class (b : Bridge) (a : BuildTxArgs) (err : Err)
    (h : (setDefaults b a).1 = Except.error err) :
    (∃ s, err = Err.rpcError s) ∨
    (err = Err.unknownPairID ∧ b.getTokenConfig a.pairID = none) := by
  unfold setDefaults at h
  by_cases hv : a.value.isNone
  · rw [if_pos hv] at h
    try dsimp only at h
    split at h
    · rename_i e ex0 tr0 heq
      try dsimp only at h
      simp only [Except.error.injEq] at h
      subst h
      rcases resolveGasPrice_err b _ _ e (congrArg Prod.fst heq) with h1 | ⟨h2, h3⟩
      · exact Or.inl h1
      · exact Or.inr ⟨h2, h3⟩
    · rename_i ex1 tr1 heq1
      try dsimp only at h
      split at h
      · rename_i e ex0 tr0 heq2
        try dsimp only at h
        simp only [Except.error.injEq] at h
        subst h
        exact Or.inl (resolveNonce_err b _ _ e (congrArg Prod.fst heq2))
      · simp at h
  · rw [if_neg hv] at h
    try dsimp only at h
    split at h
    · rename_i e ex0 tr0 heq
      try dsimp only at h
      simp only [Except.error.injEq] at h
      subst h
      rcases resolveGasPrice_err b _ _ e (congrArg Prod.fst heq) with h1 | ⟨h2, h3⟩
      · exact Or.inl h1
      · exact Or.inr ⟨h2, h3⟩
    · rename_i ex1 tr1 heq1
      try dsimp only at h
      split at h
      · rename_i e ex0 tr0 heq2
        try dsimp only at h
        simp only [Except.error.injEq] at h
        subst h
        exact Or.inl (resolveNonce_err b _ _ e (congrArg Prod.fst heq2))
      · simp at h

/-- `checkCoinBalance` fails only with a balance-fetch error or an
insufficient-coin-balance error carrying the checked value and fee. -/
theorem checkCoinBalance_err (b : Bridge) (fromA : String) (v g : Option Int)
    (err : Err) (h : (checkCoinBalance b fromA v g).1 = Except.error err) :
    (∃ s t, err = Err.getBalanceFailed s t) ∨
    (∃ bal, err = Err.notEnoughCoinBalance bal v g) := by
  unfold checkCoinBalance at h
  cases hb : getBalance b fromA with
  | mk r tr =>
    rw [hb] at h
    cases r with
    | error e =>
      try dsimp only at h
      simp only [Except.error.injEq] at h
      exact Or.inl ⟨_, _, h.symm⟩
    | ok balance =>
      try dsimp only at h
      by_cases hlt : balance < posPart v + posPart g
      · rw [if_pos hlt] at h
        try dsimp only at h
        simp only [Except.error.injEq] at h
        exact Or.inr ⟨_, h.symm⟩
      · rw [if_neg hlt] at h
        simp at h

/-- `buildTx` fails only with a nil dereference, an unknown pair (and then the
registry lacks the pair), a balance-fetch error, or an insufficient coin
balance. -/
theorem buildTx_err_class (b : Bridge) (a : BuildTxArgs) (ex : EthExtraArgs)
    (inp : Bytes) (err : Err) (h : (buildTx b a ex inp).1 = Except.error err) :
    err = Err.nilDeref ∨
    (err = Err.unknownPairID ∧ b.getTokenConfig a.pairID = none) ∨
    (∃ s t, err = Err.getBalanceFailed s t) ∨
    (∃ bal v f, err = Err.notEnoughCoinBalance bal v f) := by
  unfold buildTx at h
  split at h
  · rename_i nonce gasLimit hnn hgg
    try dsimp only at h
    split at h
    · rename_i hval
      try dsimp only at h
      simp only [Except.error.injEq] at h
      subst h
      by_cases hsw : a.swapType = SwapType.swapout
      · rw [if_pos hsw] at hval
        cases hc : b.getTokenConfig a.pairID with
        | none => exact Or.inr (Or.inl ⟨rfl, rfl⟩)
        | some cfg => rw [hc] at hval; simp at hval
      · rw [if_neg hsw] at hval
        simp at hval
    · rename_i value hval
      try dsimp only at h
      by_cases hsw : a.swapType ≠ SwapType.noSwap
      · rw [if_pos hsw] at h
        try dsimp only at h
        rw [if_neg hsw] at h
        try dsimp only at h
        split at h
        · rename_i e tr heq
          try dsimp only at h
          simp only [Except.error.injEq] at h
          subst h
          rcases checkCoinBalance_err b _ _ _ e (congrArg Prod.fst heq) with h1 | ⟨bal, hbal⟩
          · exact Or.inr (Or.inr (Or.inl h1))
          · exact Or.inr (Or.inr (Or.inr ⟨bal, _, _, hbal⟩))
        · simp at h
      · rw [if_neg hsw] at h
        rw [not_not] at hsw
        try dsimp only at h
        rw [if_pos hsw] at h
        cases hgp : ex.gasPrice with
        | none =>
          rw [hgp] at h
          simp only [Option.map_none'] at h
          try dsimp only at h
          simp only [Except.error.injEq] at h
          exact Or.inl h.symm
        | some gp =>
          rw [hgp] at h
          simp only [Option.map_some'] at h
          try dsimp only at h
          split at h
          · rename_i e tr heq
            try dsimp only at h
            simp only [Except.error.injEq] at h
            subst h
            rcases checkCoinBalance_err b _ _ _ e (congrArg Prod.fst heq) with h1 | ⟨bal, hbal⟩
            · exact Or.inr (Or.inr (Or.inl h1))
            · exact Or.inr (Or.inr (Or.inr ⟨bal, _, _, hbal⟩))
          · simp at h
  · try dsimp only at h
    simp only [Except.error.injEq] at h
    exact Or.inl h.symm

/-- The intent returned by `buildTx` is the incoming intent, possibly with the
identifier stamped. -/
theorem buildTx_args_eq (b : Bridge) (a : BuildTxArgs) (ex : EthExtraArgs)
    (inp : Bytes) :
    (buildTx b a ex inp).2.1 = a ∨
    (buildTx b a ex inp).2.1 = { a with identifier := b.identifier } := by
  unfold buildTx
  split
  · rename_i nonce gasLimit hnn hgg
    try dsimp only
    split
    · exact Or.inl rfl
    · rename_i value hval
      try dsimp only
      by_cases hsw : a.swapType ≠ SwapType.noSwap
      · rw [if_pos hsw]
        try dsimp only
        rw [if_neg hsw]
        try dsimp only
        split
        · exact Or.inr rfl
        · exact Or.inr rfl
      · rw [if_neg hsw]
        rw [not_not] at hsw
        try dsimp only
        rw [if_pos hsw]
        cases hgp : ex.gasPrice with
        | none => exact Or.inl rfl
        | some gp =>
          split
          · exact Or.inl rfl
          · split
            · exact Or.inl rfl
            · exact Or.inl rfl
  · exact Or.inl rfl
/-- `finishBuild` never changes the recipient or the payload of the intent. -/
theorem finishBuild_args_fields (b : Bridge) (a : BuildTxArgs) (inp : Bytes) :
    ((finishBuild b a inp).2.1).toAddr = a.toAddr ∧
    ((finishBuild b a inp).2.1).input = a.input := by
  obtain ⟨_, _, _, _, hto, _, _, hin, _⟩ := setDefaults_proj b a
  unfold finishBuild
  split
  · rename_i e args1 tr heq
    have h1 : args1 = (setDefaults b a).2.1 := by rw [heq]
    show args1.toAddr = a.toAddr ∧ args1.input = a.input
    rw [h1]
    exact ⟨hto, hin⟩
  · rename_i ex args1 tr heq
    have h1 : args1 = (setDefaults b a).2.1 := by rw [heq]
    show ((buildTx b args1 ex inp).2.1).toAddr = a.toAddr ∧
         ((buildTx b args1 ex inp).2.1).input = a.input
    rcases buildTx_args_eq b args1 ex inp with h2 | h2
    · rw [h2, h1]
      exact ⟨hto, hin⟩
    · rw [h2]
      show args1.toAddr = a.toAddr ∧ args1.input = a.input
      rw [h1]
      exact ⟨hto, hin⟩

/-- `finishBuild` fails only with an RPC error, an unknown pair (and then the
registry lacks the pair), a nil dereference, a balance-fetch error, or an
insufficient coin balance. -/
theorem finishBuild_err_class (b : Bridge) (a : BuildTxArgs) (inp : Bytes)
    (err : Err) (h : (finishBuild b a inp).1 = Except.error err) :
    (∃ s, err = Err.rpcError s) ∨
    (err = Err.unknownPairID ∧ b.getTokenConfig a.pairID = none) ∨
    err = Err.nilDeref ∨
    (∃ s t, err = Err.getBalanceFailed s t) ∨
    (∃ bal v f, err = Err.notEnoughCoinBalance bal v f) := by
  unfold finishBuild at h
  split at h
  · rename_i e args1 tr heq
    try dsimp only at h
    simp only [Except.error.injEq] at h
    subst h
    rcases setDefaults_err_class b a e (congrArg Prod.fst heq) with h1 | h1
    · exact Or.inl h1
    · exact Or.inr (Or.inl h1)
  · rename_i ex args1 tr heq
    try dsimp only at h
    have h1 : args1 = (setDefaults b a).2.1 := by rw [heq]
    rcases buildTx_err_class b args1 ex inp err h with h2 | ⟨h2, h3⟩ | h2 | h2
    · exact Or.inr (Or.inr (Or.inl h2))
    · refine Or.inr (Or.inl ⟨h2, ?_⟩)
      rw [h1] at h3
      rwa [(setDefaults_proj b a).1] at h3
    · exact Or.inr (Or.inr (Or.inr (Or.inl h2)))
    · exact Or.inr (Or.inr (Or.inr (Or.inr h2)))

/-- On a swap build with unset gas price, a known pair, and a successful
suggested-price fetch, `resolveGasPrice` succeeds and applies the pair's
markup `price * (100 + addPercent) / 100` (skipped when the markup is zero). -/
theorem resolveGasPrice_swap (b : Bridge) (a : BuildTxArgs) (extra : EthExtraArgs)
    (cfg : TokenConfig) (suggested : Int)
    (hgp : extra.gasPrice = none) (hty : a.swapType ≠ SwapType.noSwap)
    (hcfg : b.getTokenConfig a.pairID = some cfg)
    (hs : (getGasPrice b).1 = Except.ok suggested) :
    resolveGasPrice b a extra =
      (Except.ok (),
       { extra with gasPrice := some (markedUpPrice cfg suggested) },
       (getGasPrice b).2) := by
  have hpair : getGasPrice b = (Except.ok suggested, (getGasPrice b).2) := by
    rw [← hs]
  unfold resolveGasPrice markedUpPrice
  rw [hgp]
  try dsimp only
  rw [hpair]
  try dsimp only
  rw [if_neg hty, hcfg]

/-- After a successful `setDefaults` on a swap build whose gas price was
unset, the committed gas price is the fetched suggested price with the pair's
markup applied. -/
theorem setDefaults_gasPrice_swap (b : Bridge) (a : BuildTxArgs)
    (ex : EthExtraArgs) (cfg : TokenConfig) (suggested : Int)
    (h : (setDefaults b a).1 = Except.ok ex)
    (hunset : (a.extra.getD ⟨none, none, none⟩).gasPrice = none)
    (hty : a.swapType ≠ SwapType.noSwap)
    (hcfg : b.getTokenConfig a.pairID = some cfg)
    (hs : (getGasPrice b).1 = Except.ok suggested) :
    ex.gasPrice = some (markedUpPrice cfg suggested) := by
  unfold setDefaults at h
  by_cases hv : a.value.isNone
  · rw [if_pos hv] at h
    try dsimp only at h
    rw [resolveGasPrice_swap b { a with value := some (0 : Int) }
        (a.extra.getD ⟨none, none, none⟩) cfg suggested hunset hty hcfg hs] at h
    try dsimp only at h
    split at h
    · rename_i e ex2 tr2 heq2
      simp at h
    · rename_i ex2 tr2 heq2
      try dsimp only at h
      simp only [Except.ok.injEq] at h
      subst h
      have h21 := congrArg (fun p => (p.2.1).gasPrice) heq2
      dsimp only at h21
      rw [resolveNonce_gasPrice] at h21
      by_cases hg : ex2.gas.isNone
      · rw [if_pos hg]
        exact h21.symm
      · rw [if_neg hg]
        exact h21.symm
  · rw [if_neg hv] at h
    try dsimp only at h
    rw [resolveGasPrice_swap b a
        (a.extra.getD ⟨none, none, none⟩) cfg suggested hunset hty hcfg hs] at h
    try dsimp only at h
    split at h
    · rename_i e ex2 tr2 heq2
      simp at h
    · rename_i ex2 tr2 heq2
      try dsimp only at h
      simp only [Except.ok.injEq] at h
      subst h
      have h21 := congrArg (fun p => (p.2.1).gasPrice) heq2
      dsimp only at h21
      rw [resolveNonce_gasPrice] at h21
      by_cases hg : ex2.gas.isNone
      · rw [if_pos hg]
        exact h21.symm
      · rw [if_neg hg]
        exact h21.symm

/-- An invalid or zero bind address makes `buildSwapinTxInput` fail with the
swapin validation error, leaving the intent untouched. -/
theorem buildSwapinTxInput_invalid (b : Bridge) (a : BuildTxArgs)
    (hinv : hexToAddress a.bind = 0 ∨ isHexAddress a.bind = false) :
    buildSwapinTxInput b a = (Except.error Err.swapinInvalidAddress, a) := by
  unfold buildSwapinTxInput
  try dsimp only
  rw [if_pos]
  rcases hinv with h | h <;> simp [h]

/-- An invalid or zero bind address makes `buildErc20SwapoutTxInput` fail with
the swapout validation error, leaving the intent untouched. -/
theorem buildErc20_invalid (b : Bridge) (a : BuildTxArgs)
    (hinv : hexToAddress a.bind = 0 ∨ isHexAddress a.bind = false) :
    buildErc20SwapoutTxInput b a = (Except.error Err.swapoutInvalidAddress, a, []) := by
  unfold buildErc20SwapoutTxInput
  try dsimp only
  rw [if_pos]
  rcases hinv with h | h <;> simp [h]

/-- On a valid non-zero bind address and a known pair, `buildSwapinTxInput`
commits the `Swapin(txhash, account, amount)` payload and the token contract
recipient to the intent. -/
theorem buildSwapinTxInput_ok (b : Bridge) (a : BuildTxArgs) (cfg : TokenConfig)
    (hvalid : isHexAddress a.bind = true) (hnz : hexToAddress a.bind ≠ 0)
    (hcfg : b.getTokenConfig a.pairID = some cfg) :
    buildSwapinTxInput b a =
      (Except.ok (),
       { a with
         input := some (Bytes.pack FuncSel.swapin
           [AbiWord.hash (hexToHash a.swapID), AbiWord.addr (hexToAddress a.bind),
            AbiWord.num (b.calcSwappedValue a.pairID a.originValue true)]),
         toAddr := cfg.contractAddress }) := by
  unfold buildSwapinTxInput
  try dsimp only
  rw [if_neg (by simp [hvalid, hnz]), hcfg]

/-- A successful `buildErc20SwapoutTxInput` has committed the
`transfer(account, amount)` payload and the token contract recipient. -/
theorem buildErc20_ok (b : Bridge) (a : BuildTxArgs) (u : Unit)
    (a2 : BuildTxArgs) (tr : List Event)
    (h : buildErc20SwapoutTxInput b a = (Except.ok u, a2, tr)) :
    ∃ cfg, b.getTokenConfig a.pairID = some cfg ∧
      a2 = { a with
             input := some (Bytes.pack FuncSel.transfer
               [AbiWord.addr (hexToAddress a.bind),
                AbiWord.num (b.calcSwappedValue a.pairID a.originValue false)]),
             toAddr := cfg.contractAddress } := by
  unfold buildErc20SwapoutTxInput at h
  try dsimp only at h
  by_cases hcond : (decide (hexToAddress a.bind = 0) || !isHexAddress a.bind) = true
  · rw [if_pos hcond] at h
    simp at h
  · rw [if_neg hcond] at h
    cases hc : b.getTokenConfig a.pairID with
    | none =>
      rw [hc] at h
      simp at h
    | some token =>
      rw [hc] at h
      try dsimp only at h
      simp only [Prod.mk.injEq] at h
      exact ⟨token, rfl, h.2.1.symm⟩

/-! ## Claim theorems -/

/-- **C5 (confirmed).** A build intent carrying a caller-supplied raw payload
together with a direction other than `None` always fails immediately with the
raw-payload validation error (`"forbid build raw swap tx with input data"`,
the spec's `ValidationError`), with no network call and with the intent left
unmodified. -/
theorem claim_c5_raw_payload_forbidden (b : Bridge) (args : BuildTxArgs)
    (inp : Bytes) (hin : args.input = some inp)
    (hty : args.swapType ≠ SwapType.noSwap) :
    buildRawTransaction b args = (Except.error Err.forbidRawSwapInput, args, []) := by
  unfold buildRawTransaction
  rw [hin]
  try dsimp only
  rw [if_pos hty]

/-- Witness for C5 at a concrete intent. -/
theorem claim_c5_witness :
    ({ wArgs with input := some (Bytes.raw "ff") }).input = some (Bytes.raw "ff") ∧
    ({ wArgs with input := some (Bytes.raw "ff") }).swapType ≠ SwapType.noSwap ∧
    buildRawTransaction wBridgeDst { wArgs with input := some (Bytes.raw "ff") } =
      (Except.error Err.forbidRawSwapInput,
       { wArgs with input := some (Bytes.raw "ff") }, []) :=
  ⟨rfl, by decide,
   claim_c5_raw_payload_forbidden wBridgeDst _ (Bytes.raw "ff") rfl (by decide)⟩

/-- **C2 (amended).** For a build intent with a nil raw payload whose pair the
registry knows, a `SwapIn` on the origin endpoint or a `SwapOut` on the
non-origin endpoint fails with the direction error
(`ErrBuildSwapTxInWrongEndpoint`) before any network call (the event trace is
empty); the only possible mutation is defaulting an empty sender field to the
pair's custodial address. -/
theorem claim_c2_direction_error (b : Bridge) (args : BuildTxArgs)
    (cfg : TokenConfig) (hin : args.input = none)
    (hcfg : b.getTokenConfig args.pairID = some cfg)
    (hdir : (args.swapType = SwapType.swapin ∧ b.isSrc = true) ∨
            (args.swapType = SwapType.swapout ∧ b.isSrc = false)) :
    buildRawTransaction b args =
      (Except.error Err.wrongEndpoint,
       if args.fromAddr = "" then { args with fromAddr := cfg.dcrmAddress } else args,
       []) := by
  unfold buildRawTransaction
  rw [hin]
  rcases hdir with ⟨hty, hsrc⟩ | ⟨hty, hsrc⟩
  · rw [hty]
    try dsimp only
    rw [hcfg]
    try dsimp only
    rw [if_pos hsrc]
  · rw [hty]
    try dsimp only
    rw [hcfg]
    try dsimp only
    rw [hsrc]
    try dsimp only
    rw [if_pos (by simp)]

/-- **C2 counterexample.** The claim as stated ("without mutating any field of
the intent") fails: a swap-in intent with an empty sender, built on the origin
endpoint, does fail with the direction error before any network call, but its
sender field has been mutated to the pair's custodial address. -/
theorem claim_c2_counterexample :
    buildRawTransaction wBridgeSrc { wArgs with fromAddr := "" } =
      (Except.error Err.wrongEndpoint,
       { wArgs with fromAddr := wCfgTok.dcrmAddress }, []) ∧
    { wArgs with fromAddr := wCfgTok.dcrmAddress } ≠ { wArgs with fromAddr := "" } := by
  constructor
  · rfl
  · decide

/-- Witness for C2 at a concrete intent. -/
theorem claim_c2_witness :
    wArgs.input = none ∧
    wBridgeSrc.getTokenConfig wArgs.pairID = some wCfgTok ∧
    (wArgs.swapType = SwapType.swapin ∧ wBridgeSrc.isSrc = true) ∧
    buildRawTransaction wBridgeSrc wArgs =
      (Except.error Err.wrongEndpoint,
       if wArgs.fromAddr = "" then { wArgs with fromAddr := wCfgTok.dcrmAddress }
       else wArgs, []) :=
  ⟨rfl, rfl, ⟨rfl, rfl⟩,
   claim_c2_direction_error wBridgeSrc wArgs wCfgTok rfl rfl (Or.inl ⟨rfl, rfl⟩)⟩

/-- **C4 (amended).** For the SwapIn and token-SwapOut legs, a bind address
that is not syntactically valid and non-zero makes the leg builder fail with
its validation error before any payload is encoded (the intent is untouched),
and the whole build then fails with the intent's payload still absent.  The
native-coin SwapOut leg performs no bind validation (see the
counterexample). -/
theorem claim_c4_bind_validation (b : Bridge) (args : BuildTxArgs)
    (hinv : hexToAddress args.bind = 0 ∨ isHexAddress args.bind = false) :
    buildSwapinTxInput b args = (Except.error Err.swapinInvalidAddress, args) ∧
    buildErc20SwapoutTxInput b args =
      (Except.error Err.swapoutInvalidAddress, args, []) ∧
    (args.input = none → args.swapType = SwapType.swapin →
      ∀ r args' tr, buildRawTransaction b args = (r, args', tr) →
        (∃ e, r = Except.error e) ∧ args'.input = none) ∧
    (∀ cfg, args.input = none → args.swapType = SwapType.swapout →
      b.getTokenConfig args.pairID = some cfg → cfg.isErc20 = true →
      ∀ r args' tr, buildRawTransaction b args = (r, args', tr) →
        (∃ e, r = Except.error e) ∧ args'.input = none) := by
  refine ⟨buildSwapinTxInput_invalid b args hinv,
          buildErc20_invalid b args hinv, ?_, ?_⟩
  · intro hin hty r args' tr heq
    unfold buildRawTransaction at heq
    rw [hin, hty] at heq
    try dsimp only at heq
    cases hc : b.getTokenConfig args.pairID with
    | none =>
      rw [hc] at heq
      try dsimp only at heq
      simp only [Prod.mk.injEq] at heq
      exact ⟨⟨_, heq.1.symm⟩, by rw [← heq.2.1] <;> exact hin⟩
    | some cfg =>
      rw [hc] at heq
      try dsimp only at heq
      by_cases hfa : args.fromAddr = ""
      · rw [if_pos hfa] at heq
        by_cases hsrc : b.isSrc = true
        · rw [if_pos hsrc] at heq
          simp only [Prod.mk.injEq] at heq
          exact ⟨⟨_, heq.1.symm⟩, by rw [← heq.2.1] <;> exact hin⟩
        · rw [if_neg hsrc] at heq
          rw [buildSwapinTxInput_invalid b { args with fromAddr := cfg.dcrmAddress, swapType := SwapType.swapin, input := none } hinv] at heq
          try dsimp only at heq
          simp only [Prod.mk.injEq] at heq
          exact ⟨⟨_, heq.1.symm⟩, by rw [← heq.2.1] <;> exact hin⟩
      · rw [if_neg hfa] at heq
        by_cases hsrc : b.isSrc = true
        · rw [if_pos hsrc] at heq
          simp only [Prod.mk.injEq] at heq
          exact ⟨⟨_, heq.1.symm⟩, by rw [← heq.2.1] <;> exact hin⟩
        · rw [if_neg hsrc] at heq
          rw [buildSwapinTxInput_invalid b args hinv] at heq
          try dsimp only at heq
          simp only [Prod.mk.injEq] at heq
          exact ⟨⟨_, heq.1.symm⟩, by rw [← heq.2.1] <;> exact hin⟩
  · intro cfg hin hty hcfg herc r args' tr heq
    unfold buildRawTransaction at heq
    rw [hin, hty] at heq
    try dsimp only at heq
    rw [hcfg] at heq
    try dsimp only at heq
    by_cases hfa : args.fromAddr = ""
    · rw [if_pos hfa] at heq
      by_cases hsrc : b.isSrc = true
      · rw [hsrc] at heq
        rw [if_neg (by simp)] at heq
        rw [if_pos herc] at heq
        rw [buildErc20_invalid b { args with fromAddr := cfg.dcrmAddress, swapType := SwapType.swapout, input := none } hinv] at heq
        try dsimp only at heq
        simp only [Prod.mk.injEq] at heq
        exact ⟨⟨_, heq.1.symm⟩, by rw [← heq.2.1] <;> exact hin⟩
      · have hfalse : b.isSrc = false := by
          revert hsrc; cases b.isSrc <;> simp
        rw [hfalse] at heq
        rw [if_pos (by simp)] at heq
        simp only [Prod.mk.injEq] at heq
        exact ⟨⟨_, heq.1.symm⟩, by rw [← heq.2.1] <;> exact hin⟩
    · rw [if_neg hfa] at heq
      by_cases hsrc : b.isSrc = true
      · rw [hsrc] at heq
        rw [if_neg (by simp)] at heq
        rw [if_pos herc] at heq
        rw [buildErc20_invalid b args hinv] at heq
        try dsimp only at heq
        simp only [Prod.mk.injEq] at heq
        exact ⟨⟨_, heq.1.symm⟩, by rw [← heq.2.1] <;> exact hin⟩
      · have hfalse : b.isSrc = false := by
          revert hsrc; cases b.isSrc <;> simp
        rw [hfalse] at heq
        rw [if_pos (by simp)] at heq
        simp only [Prod.mk.injEq] at heq
        exact ⟨⟨_, heq.1.symm⟩, by rw [← heq.2.1] <;> exact hin⟩

/-- **C4 counterexample.** The claim as stated also covers the native-coin
SwapOut leg, but that leg validates nothing: a swap-out build on the
native-coin pair with an empty (hence invalid, zero) bind address succeeds and
produces a transaction whose recipient is the zero address. -/
theorem claim_c4_counterexample :
    ({ wArgsCoin with bind := "" }).swapType = SwapType.swapout ∧
    isHexAddress "" = false ∧
    (buildRawTransaction wBridgeSrc { wArgsCoin with bind := "" }).1 =
      Except.ok
        { nonce := 7, toAddr := 0, value := some 50, gasLimit := 60000,
          gasPrice := some 100, input := Bytes.unlockMemo "0xabc" } :=
  ⟨rfl, rfl, rfl⟩

/-- Witness for C4 at a concrete invalid bind address. -/
theorem claim_c4_witness :
    (hexToAddress "zz" = 0 ∨ isHexAddress "zz" = false) ∧
    buildSwapinTxInput wBridgeDst { wArgs with bind := "zz" } =
      (Except.error Err.swapinInvalidAddress, { wArgs with bind := "zz" }) ∧
    buildErc20SwapoutTxInput wBridgeDst { wArgs with bind := "zz" } =
      (Except.error Err.swapoutInvalidAddress, { wArgs with bind := "zz" }, []) :=
  ⟨Or.inr (by decide),
   (claim_c4_bind_validation wBridgeDst { wArgs with bind := "zz" } (Or.inr (by decide))).1,
   (claim_c4_bind_validation wBridgeDst { wArgs with bind := "zz" } (Or.inr (by decide))).2.1⟩

/-- What a successful `finishBuild` guarantees, phrased on the intent that
entered it: input and recipient pass through to the transaction, and the value
is the caller value (defaulted to zero) except on a native-coin swapout. -/
theorem finish_value_swap (b : Bridge) (A : BuildTxArgs) (inp : Bytes)
    (tx : Transaction) (h : (finishBuild b A inp).1 = Except.ok tx) :
    tx.input = inp ∧ tx.toAddr = hexToAddress A.toAddr ∧
    (A.swapType = SwapType.swapout →
      ∃ cfg, b.getTokenConfig A.pairID = some cfg ∧
        (cfg.isErc20 = true → tx.value = some (A.value.getD 0)) ∧
        (cfg.isErc20 = false →
          tx.value = some (b.calcSwappedValue A.pairID A.originValue false))) ∧
    (A.swapType ≠ SwapType.swapout → tx.value = some (A.value.getD 0)) := by
  obtain ⟨ex, hsd, hbt⟩ := finishBuild_ok b A inp tx h
  obtain ⟨hp, hsid, hst, hfa2, hto, hbind, hov, hin2, hval⟩ := setDefaults_proj b A
  obtain ⟨hti, htto, _, _, _, hswo, hnswo⟩ := buildTx_ok_fields b _ ex inp tx hbt
  refine ⟨hti, by rw [htto, hto], ?_, ?_⟩
  · intro hsw
    obtain ⟨cfg, hcfg2, ht, hf⟩ := hswo (by rw [hst, hsw])
    rw [hp] at hcfg2
    refine ⟨cfg, hcfg2, ?_, ?_⟩
    · intro he
      rw [ht he, hval]
    · intro he
      rw [hf he, hp, hov]
  · intro hsw
    rw [hnswo (by rw [hst]; exact hsw), hval]

/-- **C1 (confirmed).** A successful SwapIn build with nil raw payload and a
valid non-zero bind address produces a transaction whose payload is exactly
the packed three-argument `Swapin` call on (hash of the swap identifier, the
bind address, the converter's into-destination amount), and whose recipient is
the pair's token contract address. -/
theorem claim_c1_swapin_payload (b : Bridge) (args args' : BuildTxArgs)
    (tr : List Event) (tx : Transaction) (cfg : TokenConfig)
    (hty : args.swapType = SwapType.swapin) (hin : args.input = none)
    (hvalid : isHexAddress args.bind = true) (hnz : hexToAddress args.bind ≠ 0)
    (hcfg : b.getTokenConfig args.pairID = some cfg)
    (hok : buildRawTransaction b args = (Except.ok tx, args', tr)) :
    tx.input = Bytes.pack FuncSel.swapin
      [AbiWord.hash (hexToHash args.swapID), AbiWord.addr (hexToAddress args.bind),
       AbiWord.num (b.calcSwappedValue args.pairID args.originValue true)] ∧
    tx.toAddr = hexToAddress cfg.contractAddress := by
  unfold buildRawTransaction at hok
  rw [hin, hty] at hok
  try dsimp only at hok
  rw [hcfg] at hok
  try dsimp only at hok
  by_cases hfa : args.fromAddr = ""
  · rw [if_pos hfa] at hok
    by_cases hsrc : b.isSrc = true
    · rw [if_pos hsrc] at hok
      simp at hok
    · rw [if_neg hsrc] at hok
      rw [buildSwapinTxInput_ok b { args with fromAddr := cfg.dcrmAddress, swapType := SwapType.swapin, input := none } cfg hvalid hnz hcfg] at hok
      try dsimp only at hok
      have hfin := finish_value_swap b _ _ tx (congrArg Prod.fst hok)
      exact ⟨hfin.1, hfin.2.1⟩
  · rw [if_neg hfa] at hok
    by_cases hsrc : b.isSrc = true
    · rw [if_pos hsrc] at hok
      simp at hok
    · rw [if_neg hsrc] at hok
      rw [buildSwapinTxInput_ok b args cfg hvalid hnz hcfg] at hok
      try dsimp only at hok
      have hfin := finish_value_swap b _ _ tx (congrArg Prod.fst hok)
      exact ⟨hfin.1, hfin.2.1⟩

/-- Witness for C1 at a concrete successful swap-in build. -/
theorem claim_c1_witness :
    wArgs.swapType = SwapType.swapin ∧ wArgs.input = none ∧
    isHexAddress wArgs.bind = true ∧ hexToAddress wArgs.bind ≠ 0 ∧
    wBridgeDst.getTokenConfig wArgs.pairID = some wCfgTok ∧
    buildRawTransaction wBridgeDst wArgs = (Except.ok wTx1, wArgs1, wTr1) ∧
    wTx1.input = Bytes.pack FuncSel.swapin
      [AbiWord.hash (hexToHash wArgs.swapID), AbiWord.addr (hexToAddress wArgs.bind),
       AbiWord.num (wBridgeDst.calcSwappedValue wArgs.pairID wArgs.originValue true)] ∧
    wTx1.toAddr = hexToAddress wCfgTok.contractAddress := by
  have hok : buildRawTransaction wBridgeDst wArgs = (Except.ok wTx1, wArgs1, wTr1) := by
    rfl
  have hmain := claim_c1_swapin_payload wBridgeDst wArgs wArgs1 wTr1 wTx1 wCfgTok
    rfl rfl (by decide) (by decide) rfl hok
  exact ⟨rfl, rfl, by decide, by decide, rfl, hok, hmain.1, hmain.2⟩

/-- A successful `buildSwapinTxInput` has committed the `Swapin` payload and
the token contract recipient. -/
theorem buildSwapinTxInput_ok_decomp (b : Bridge) (a : BuildTxArgs) (u : Unit)
    (a2 : BuildTxArgs) (h : buildSwapinTxInput b a = (Except.ok u, a2)) :
    ∃ cfg, b.getTokenConfig a.pairID = some cfg ∧
      a2 = { a with
             input := some (Bytes.pack FuncSel.swapin
               [AbiWord.hash (hexToHash a.swapID),
                AbiWord.addr (hexToAddress a.bind),
                AbiWord.num (b.calcSwappedValue a.pairID a.originValue true)]),
             toAddr := cfg.contractAddress } := by
  unfold buildSwapinTxInput at h
  try dsimp only at h
  by_cases hcond : (decide (hexToAddress a.bind = 0) || !isHexAddress a.bind) = true
  · rw [if_pos hcond] at h
    simp at h
  · rw [if_neg hcond] at h
    cases hc : b.getTokenConfig a.pairID with
    | none =>
      rw [hc] at h
      simp at h
    | some token =>
      rw [hc] at h
      try dsimp only at h
      simp only [Prod.mk.injEq] at h
      exact ⟨token, rfl, h.2.symm⟩

/-- **C10 (confirmed).** In a successful build, the transaction value is the
converter's out-of-destination amount for a SwapOut on a native-coin pair
(overriding any caller-supplied value), and the caller-supplied value (zero
when unset) for a token SwapOut or a SwapIn. -/
theorem claim_c10_value_selection (b : Bridge) (args args' : BuildTxArgs)
    (tr : List Event) (tx : Transaction) (cfg : TokenConfig)
    (hin : args.input = none)
    (hcfg : b.getTokenConfig args.pairID = some cfg)
    (hok : buildRawTransaction b args = (Except.ok tx, args', tr)) :
    (args.swapType = SwapType.swapout → cfg.isErc20 = false →
       tx.value = some (b.calcSwappedValue args.pairID args.originValue false)) ∧
    (args.swapType = SwapType.swapout → cfg.isErc20 = true →
       tx.value = some (args.value.getD 0)) ∧
    (args.swapType = SwapType.swapin → tx.value = some (args.value.getD 0)) := by
  unfold buildRawTransaction at hok
  rw [hin] at hok
  refine ⟨?_, ?_, ?_⟩
  · intro hty herc
    rw [hty] at hok
    try dsimp only at hok
    rw [hcfg] at hok
    try dsimp only at hok
    by_cases hfa : args.fromAddr = ""
    all_goals
      first
        | rw [if_pos hfa] at hok
        | rw [if_neg hfa] at hok
      by_cases hsrc : b.isSrc = true
      case pos =>
        rw [hsrc] at hok
        rw [if_neg (by simp)] at hok
        rw [if_neg (by simp [herc])] at hok
        try dsimp only at hok
        have hfin := finish_value_swap b _ _ tx (congrArg Prod.fst hok)
        obtain ⟨cfg2, hcfg2, ht, hf⟩ := hfin.2.2.1 (by first | rfl | exact hty)
        dsimp only at hcfg2
        rw [hcfg] at hcfg2
        injection hcfg2 with h3
        subst h3
        exact hf herc
      case neg =>
        have hfalse : b.isSrc = false := by
          revert hsrc; cases b.isSrc <;> simp
        rw [hfalse] at hok
        rw [if_pos (by simp)] at hok
        simp at hok
  · intro hty herc
    rw [hty] at hok
    try dsimp only at hok
    rw [hcfg] at hok
    try dsimp only at hok
    by_cases hfa : args.fromAddr = ""
    all_goals
      first
        | rw [if_pos hfa] at hok
        | rw [if_neg hfa] at hok
      by_cases hsrc : b.isSrc = true
      case pos =>
        rw [hsrc] at hok
        rw [if_neg (by simp)] at hok
        rw [if_pos herc] at hok
        split at hok
        · simp at hok
        · rename_i u args2 tr2 heq2
          obtain ⟨cfg2, hcfg2, ha2⟩ := buildErc20_ok b _ u args2 tr2 heq2
          subst ha2
          try dsimp only at hok
          have h1 := congrArg Prod.fst hok
          dsimp only at h1
          have hfin := finish_value_swap b _ _ tx h1
          obtain ⟨cfg3, hcfg3, ht, hf⟩ := hfin.2.2.1 (by first | rfl | exact hty)
          dsimp only at hcfg3
          rw [hcfg] at hcfg3
          injection hcfg3 with h3
          subst h3
          exact ht herc
      case neg =>
        have hfalse : b.isSrc = false := by
          revert hsrc; cases b.isSrc <;> simp
        rw [hfalse] at hok
        rw [if_pos (by simp)] at hok
        simp at hok
  · intro hty
    rw [hty] at hok
    try dsimp only at hok
    rw [hcfg] at hok
    try dsimp only at hok
    by_cases hfa : args.fromAddr = ""
    all_goals
      first
        | rw [if_pos hfa] at hok
        | rw [if_neg hfa] at hok
      by_cases hsrc : b.isSrc = true
      case pos =>
        rw [if_pos hsrc] at hok
        simp at hok
      case neg =>
        rw [if_neg hsrc] at hok
        split at hok
        · simp at hok
        · rename_i u args2 heq2
          obtain ⟨cfg2, hcfg2, ha2⟩ := buildSwapinTxInput_ok_decomp b _ u args2 heq2
          subst ha2
          try dsimp only at hok
          have h1 := congrArg Prod.fst hok
          dsimp only at h1
          have hfin := finish_value_swap b _ _ tx h1
          exact hfin.2.2.2 (by simp [hty])

/-- When the pair is known, a failing `finishBuild` can return neither one of
the pre-payload errors nor a token-balance error. -/
theorem finishBuild_err_not_early (b : Bridge) (a : BuildTxArgs) (inp : Bytes)
    (e : Err) (h : (finishBuild b a inp).1 = Except.error e) (cfg : TokenConfig)
    (hc : b.getTokenConfig a.pairID = some cfg) :
    ¬(e = Err.forbidRawSwapInput ∨ e = Err.unknownPairID ∨ e = Err.wrongEndpoint ∨
      e = Err.swapinInvalidAddress ∨ e = Err.swapoutInvalidAddress) ∧
    (∀ got need, e ≠ Err.notEnoughTokenBalance got need) := by
  rcases finishBuild_err_class b a inp e h with
    ⟨s, hs⟩ | ⟨h1, h2⟩ | h1 | ⟨s, t, hs⟩ | ⟨bal, v, f, hs⟩
  · subst hs; exact ⟨by simp, by simp⟩
  · rw [hc] at h2; simp at h2
  · subst h1; exact ⟨by simp, by simp⟩
  · subst hs; exact ⟨by simp, by simp⟩
  · subst hs; exact ⟨by simp, by simp⟩

/-- **C3 (amended).** If the build fails before the leg's payload is encoded
(forbidden raw payload, unknown pair, direction error, invalid bind address),
the intent's recipient and payload fields are unchanged.  Once the payload
step of a leg succeeds, those fields are committed immediately rather than
staged: in particular a token-SwapOut build that fails its custodial
token-balance check returns with the payload and recipient already set to the
just-encoded values. -/
theorem claim_c3_mutation_on_error (b : Bridge) (args args' : BuildTxArgs)
    (e : Err) (tr : List Event)
    (h : buildRawTransaction b args = (Except.error e, args', tr)) :
    ((e = Err.forbidRawSwapInput ∨ e = Err.unknownPairID ∨ e = Err.wrongEndpoint ∨
      e = Err.swapinInvalidAddress ∨ e = Err.swapoutInvalidAddress) →
      args'.toAddr = args.toAddr ∧ args'.input = args.input) ∧
    (∀ got need, e = Err.notEnoughTokenBalance got need →
      ∃ cfg, b.getTokenConfig args.pairID = some cfg ∧
        args'.input = some (Bytes.pack FuncSel.transfer
          [AbiWord.addr (hexToAddress args.bind),
           AbiWord.num (b.calcSwappedValue args.pairID args.originValue false)]) ∧
        args'.toAddr = cfg.contractAddress) := by
  unfold buildRawTransaction at h
  cases hI : args.input with
  | some inp =>
    rw [hI] at h
    try dsimp only at h
    by_cases hty : args.swapType ≠ SwapType.noSwap
    · rw [if_pos hty] at h
      simp only [Prod.mk.injEq, Except.error.injEq] at h
      obtain ⟨he, ha, -⟩ := h
      subst he
      subst ha
      exact ⟨fun _ => ⟨rfl, by first | exact hI | rfl⟩, fun got need hcon => absurd hcon (by simp)⟩
    · rw [if_neg hty] at h
      have h1 := congrArg Prod.fst h
      dsimp only at h1
      obtain ⟨hto, hin⟩ := finishBuild_args_fields b args inp
      have ha : args' = (finishBuild b args inp).2.1 := by rw [h]
      refine ⟨fun _ => ?_, fun got need he => ?_⟩
      · rw [ha]
        exact ⟨hto, hin.trans hI⟩
      · subst he
        rcases finishBuild_err_class b args inp _ h1 with
          ⟨s, hs⟩ | ⟨h2, h3⟩ | h2 | ⟨s, t, hs⟩ | ⟨bal, v, f, hs⟩
        · simp at hs
        · simp at h2
        · simp at h2
        · simp at hs
        · simp at hs
  | none =>
    rw [hI] at h
    cases hty : args.swapType with
    | noSwap =>
      rw [hty] at h
      try dsimp only at h
      have h1 := congrArg Prod.fst h
      dsimp only at h1
      obtain ⟨hto, hin⟩ := finishBuild_args_fields b args Bytes.empty
      have ha : args' = (finishBuild b args Bytes.empty).2.1 := by rw [h]
      refine ⟨fun _ => ?_, fun got need he => ?_⟩
      · rw [ha]
        exact ⟨hto, hin.trans hI⟩
      · subst he
        rcases finishBuild_err_class b args Bytes.empty _ h1 with
          ⟨s, hs⟩ | ⟨h2, h3⟩ | h2 | ⟨s, t, hs⟩ | ⟨bal, v, f, hs⟩
        · simp at hs
        · simp at h2
        · simp at h2
        · simp at hs
        · simp at hs
    | swapin =>
      rw [hty] at h
      try dsimp only at h
      cases hc : b.getTokenConfig args.pairID with
      | none =>
        rw [hc] at h
        try dsimp only at h
        simp only [Prod.mk.injEq, Except.error.injEq] at h
        obtain ⟨he, ha, -⟩ := h
        subst he
        subst ha
        exact ⟨fun _ => ⟨rfl, by first | exact hI | rfl⟩, fun got need hcon => absurd hcon (by simp)⟩
      | some cfg =>
        rw [hc] at h
        try dsimp only at h
        by_cases hfa : args.fromAddr = ""
        all_goals
          first
            | rw [if_pos hfa] at h
            | rw [if_neg hfa] at h
          by_cases hsrc : b.isSrc = true
          case pos =>
            rw [if_pos hsrc] at h
            simp only [Prod.mk.injEq, Except.error.injEq] at h
            obtain ⟨he, ha, -⟩ := h
            subst he
            subst ha
            exact ⟨fun _ => ⟨rfl, by first | exact hI | rfl⟩, fun got need hcon => absurd hcon (by simp)⟩
          case neg =>
            rw [if_neg hsrc] at h
            split at h
            · rename_i e2 args2 heq2
              simp only [Prod.mk.injEq, Except.error.injEq] at h
              obtain ⟨he, ha, -⟩ := h
              subst he
              subst ha
              rcases buildSwapinTxInput_err b _ e2 args2 heq2 with
                ⟨he2, ha2⟩ | ⟨he2, hnone⟩
              · subst he2
                subst ha2
                exact ⟨fun _ => ⟨rfl, by first | exact hI | rfl⟩, fun got need hcon => absurd hcon (by simp)⟩
              · try dsimp only at hnone
                rw [hc] at hnone
                simp at hnone
            · rename_i u args2 heq2
              obtain ⟨cfg2, hcfg2, ha2⟩ := buildSwapinTxInput_ok_decomp b _ u args2 heq2
              subst ha2
              try dsimp only at h
              have h1 := congrArg Prod.fst h
              dsimp only at h1
              have fbne := finishBuild_err_not_early b _ _ e h1 cfg2 hcfg2
              exact ⟨fun hmem => absurd hmem fbne.1,
                     fun got need he => absurd he (fbne.2 got need)⟩
    | swapout =>
      rw [hty] at h
      try dsimp only at h
      cases hc : b.getTokenConfig args.pairID with
      | none =>
        rw [hc] at h
        try dsimp only at h
        simp only [Prod.mk.injEq, Except.error.injEq] at h
        obtain ⟨he, ha, -⟩ := h
        subst he
        subst ha
        exact ⟨fun _ => ⟨rfl, by first | exact hI | rfl⟩, fun got need hcon => absurd hcon (by simp)⟩
      | some cfg =>
        rw [hc] at h
        try dsimp only at h
        by_cases hfa : args.fromAddr = ""
        all_goals
          first
            | rw [if_pos hfa] at h
            | rw [if_neg hfa] at h
          by_cases hsrc : b.isSrc = true
          case neg =>
            have hfalse : b.isSrc = false := by
              revert hsrc; cases b.isSrc <;> simp
            rw [hfalse] at h
            rw [if_pos (by simp)] at h
            simp only [Prod.mk.injEq, Except.error.injEq] at h
            obtain ⟨he, ha, -⟩ := h
            subst he
            subst ha
            exact ⟨fun _ => ⟨rfl, by first | exact hI | rfl⟩, fun got need hcon => absurd hcon (by simp)⟩
          case pos =>
            rw [hsrc] at h
            rw [if_neg (by simp)] at h
            by_cases herc : cfg.isErc20 = true
            · rw [if_pos herc] at h
              split at h
              · rename_i e2 args2 tr2 heq2
                simp only [Prod.mk.injEq, Except.error.injEq] at h
                obtain ⟨he, ha, -⟩ := h
                subst he
                subst ha
                rcases buildErc20_err b _ e2 args2 tr2 heq2 with
                  ⟨he2, ha2⟩ | ⟨he2, hnone⟩ | ⟨hkind, cfg2, hcfg2, ha2⟩
                · subst he2
                  subst ha2
                  exact ⟨fun _ => ⟨rfl, by first | exact hI | rfl⟩, fun got need hcon => absurd hcon (by simp)⟩
                · try dsimp only at hnone
                  rw [hc] at hnone
                  simp at hnone
                · subst ha2
                  refine ⟨fun hmem => ?_, fun got need he => ?_⟩
                  · rcases hkind with ⟨s, hs⟩ | ⟨g, hs⟩ <;> subst hs <;> simp at hmem
                  · try dsimp only at hcfg2
                    rw [hc] at hcfg2
                    injection hcfg2 with h3
                    subst h3
                    exact ⟨cfg, rfl, rfl, rfl⟩
              · rename_i u args2 tr2 heq2
                obtain ⟨cfg2, hcfg2, ha2⟩ := buildErc20_ok b _ u args2 tr2 heq2
                subst ha2
                try dsimp only at h
                have h1 := congrArg Prod.fst h
                dsimp only at h1
                have ha : args' = _ := (congrArg (fun p => p.2.1) h).symm
                dsimp only at ha
                have fbne := finishBuild_err_not_early b _ _ e h1 cfg2 hcfg2
                refine ⟨fun hmem => absurd hmem fbne.1,
                        fun got need he => absurd he (fbne.2 got need)⟩
            · rw [if_neg herc] at h
              try dsimp only at h
              have h1 := congrArg Prod.fst h
              dsimp only at h1
              have fbne := finishBuild_err_not_early b _ _ e h1 cfg hc
              exact ⟨fun hmem => absurd hmem fbne.1,
                     fun got need he => absurd he (fbne.2 got need)⟩

/-- **C3 counterexample.** The claim as stated fails on the code: a
token-SwapOut build whose custodial token balance is too small returns an
error, yet the intent's payload and recipient fields have been mutated to the
just-encoded values. -/
theorem claim_c3_counterexample :
    wArgsTok.input = none ∧ wArgsTok.toAddr = "" ∧
    buildRawTransaction wBridgeSrcPoor wArgsTok =
      (Except.error (Err.notEnoughTokenBalance 1 50), wArgsTok3,
       [Event.rpc RPCOp.getErc20Balance 0]) ∧
    wArgsTok3.input ≠ wArgsTok.input ∧ wArgsTok3.toAddr ≠ wArgsTok.toAddr :=
  ⟨rfl, rfl, rfl, by decide, by decide⟩

/-- Witness for C3 at the concrete failing token-swap-out build. -/
theorem claim_c3_witness :
    ∃ cfg, wBridgeSrcPoor.getTokenConfig wArgsTok.pairID = some cfg ∧
      wArgsTok3.input = some (Bytes.pack FuncSel.transfer
        [AbiWord.addr (hexToAddress wArgsTok.bind),
         AbiWord.num (wBridgeSrcPoor.calcSwappedValue wArgsTok.pairID
           wArgsTok.originValue false)]) ∧
      wArgsTok3.toAddr = cfg.contractAddress :=
  (claim_c3_mutation_on_error wBridgeSrcPoor wArgsTok wArgsTok3
    (Err.notEnoughTokenBalance 1 50) [Event.rpc RPCOp.getErc20Balance 0] rfl).2
    1 50 rfl

/-- **C6 (confirmed).** On a swap build with unset gas price, a known pair and
a successful suggested-price fetch, the resolved gas price is
`floor(suggested * (100 + markupPct) / 100)` (Go `big.Int.Div` on the
non-negative range is floor division; a zero markup skips the computation,
which agrees with the formula). -/
theorem claim_c6_gas_price_markup (b : Bridge) (a : BuildTxArgs)
    (ex : EthExtraArgs) (cfg : TokenConfig) (suggested : Int)
    (h : (setDefaults b a).1 = Except.ok ex)
    (hunset : (a.extra.getD ⟨none, none, none⟩).gasPrice = none)
    (hty : a.swapType ≠ SwapType.noSwap)
    (hcfg : b.getTokenConfig a.pairID = some cfg)
    (hs : (getGasPrice b).1 = Except.ok suggested) :
    ex.gasPrice =
      some (Int.fdiv (suggested * (100 + (cfg.plusGasPricePercentage : Int))) 100) := by
  rw [setDefaults_gasPrice_swap b a ex cfg suggested h hunset hty hcfg hs]
  unfold markedUpPrice
  by_cases hp : 0 < cfg.plusGasPricePercentage
  · rw [if_pos hp]
  · rw [if_neg hp]
    have h0 : cfg.plusGasPricePercentage = 0 := by omega
    rw [h0]
    norm_num

/-- Witness for C6: suggested price 100 with markup 10 resolves to 110, and
suggested 99 with markup 10 resolves to 108 (integer truncation). -/
theorem claim_c6_witness :
    ((setDefaults wBridgeDst wArgs).1 =
       Except.ok { gasPrice := some 110, nonce := some 7, gas := some 90000 } ∧
     (getGasPrice wBridgeDst).1 = Except.ok 100 ∧
     (some (110 : Int) =
       some (Int.fdiv ((100 : Int) * (100 + (wCfgTok.plusGasPricePercentage : Int))) 100))) ∧
    ((setDefaults (wBridge false 99 (10 ^ 17) (10 ^ 9)) wArgs).1 =
       Except.ok { gasPrice := some 108, nonce := some 7, gas := some 90000 } ∧
     (getGasPrice (wBridge false 99 (10 ^ 17) (10 ^ 9))).1 = Except.ok 99 ∧
     (some (108 : Int) =
       some (Int.fdiv ((99 : Int) * (100 + (wCfgTok.plusGasPricePercentage : Int))) 100))) := by
  refine ⟨⟨rfl, rfl, ?_⟩, ⟨rfl, rfl, ?_⟩⟩
  · exact claim_c6_gas_price_markup wBridgeDst wArgs
      { gasPrice := some 110, nonce := some 7, gas := some 90000 } wCfgTok 100
      rfl rfl (by decide) rfl rfl
  · exact claim_c6_gas_price_markup (wBridge false 99 (10 ^ 17) (10 ^ 9)) wArgs
      { gasPrice := some 108, nonce := some 7, gas := some 90000 } wCfgTok 99
      rfl rfl (by decide) rfl rfl

/-- **C7 (confirmed).** The coin-balance check passes exactly when the fetched
balance covers value + fee (for non-negative value and fee), and on failure
the error reports the fetched balance together with the checked value and fee.
Inside `buildTx`, the fee given to the check is the fixed conservative reserve
`defReserveGasFee` for swap transactions, and the product of the resolved gas
price and gas limit for non-swap transactions. -/
theorem claim_c7_balance_check (b : Bridge) (fromA : String) (v f bal : Int)
    (hv : 0 ≤ v) (hf : 0 ≤ f)
    (hbal : (getBalance b fromA).1 = Except.ok bal) :
    (((checkCoinBalance b fromA (some v) (some f)).1 = Except.ok ()) ↔ v + f ≤ bal) ∧
    (bal < v + f →
      (checkCoinBalance b fromA (some v) (some f)).1 =
        Except.error (Err.notEnoughCoinBalance bal (some v) (some f))) ∧
    (∀ (a : BuildTxArgs) (ex : EthExtraArgs) (inp : Bytes) (bal' : Int)
       (v' f' : Option Int),
      (buildTx b a ex inp).1 = Except.error (Err.notEnoughCoinBalance bal' v' f') →
      (a.swapType ≠ SwapType.noSwap → f' = some defReserveGasFee) ∧
      (a.swapType = SwapType.noSwap →
        ∃ gp gl, ex.gasPrice = some gp ∧ ex.gas = some gl ∧
          f' = some (gp * (gl : Int)))) := by
  have hpv : posPart (some v) = v := by
    show (if 0 < v then v else 0) = v
    split <;> omega
  have hpf : posPart (some f) = f := by
    show (if 0 < f then f else 0) = f
    split <;> omega
  have hb : getBalance b fromA = (Except.ok bal, (getBalance b fromA).2) := by
    rw [← hbal]
  refine ⟨?_, ?_, ?_⟩
  · unfold checkCoinBalance
    rw [hb]
    try dsimp only
    rw [hpv, hpf]
    by_cases hlt : bal < v + f
    · rw [if_pos hlt]
      constructor
      · intro hcon
        simp at hcon
      · intro hle
        omega
    · rw [if_neg hlt]
      constructor
      · intro _
        omega
      · intro _
        rfl
  · intro hlt
    unfold checkCoinBalance
    rw [hb]
    try dsimp only
    rw [hpv, hpf]
    rw [if_pos hlt]
  · intro a ex inp bal' v' f' hbt
    unfold buildTx at hbt
    split at hbt
    · rename_i nonce gasLimit hnn hgg
      try dsimp only at hbt
      split at hbt
      · simp at hbt
      · rename_i value hval
        try dsimp only at hbt
        by_cases hsw : a.swapType ≠ SwapType.noSwap
        · rw [if_pos hsw] at hbt
          try dsimp only at hbt
          rw [if_neg hsw] at hbt
          try dsimp only at hbt
          split at hbt
          · rename_i e tr heq
            try dsimp only at hbt
            simp only [Except.error.injEq] at hbt
            rcases checkCoinBalance_err b _ _ _ e (congrArg Prod.fst heq) with
              ⟨s, t, hs⟩ | ⟨bal2, hs⟩
            · rw [hbt] at hs
              simp at hs
            · rw [hbt] at hs
              simp only [Err.notEnoughCoinBalance.injEq] at hs
              exact ⟨fun _ => hs.2.2, fun hcon => absurd hcon hsw⟩
          · simp at hbt
        · rw [if_neg hsw] at hbt
          rw [not_not] at hsw
          try dsimp only at hbt
          rw [if_pos hsw] at hbt
          cases hgp : ex.gasPrice with
          | none =>
            rw [hgp] at hbt
            simp only [Option.map_none'] at hbt
            try dsimp only at hbt
            simp at hbt
          | some gp =>
            rw [hgp] at hbt
            simp only [Option.map_some'] at hbt
            try dsimp only at hbt
            split at hbt
            · rename_i e tr heq
              try dsimp only at hbt
              simp only [Except.error.injEq] at hbt
              rcases checkCoinBalance_err b _ _ _ e (congrArg Prod.fst heq) with
                ⟨s, t, hs⟩ | ⟨bal2, hs⟩
              · rw [hbt] at hs
                simp at hs
              · rw [hbt] at hs
                simp only [Err.notEnoughCoinBalance.injEq] at hs
                exact ⟨fun hcon => absurd hsw hcon,
                       fun _ => ⟨gp, gasLimit, rfl, hgg, hs.2.2⟩⟩
            · simp at hbt
    · simp at hbt

/-- Witness for C7: balance 100, value 30, fee 10 passes; balance 39, value
30, fee 10 fails with the error carrying value 30 and fee 10 (30 + 10 = 40). -/
theorem claim_c7_witness :
    (0 : Int) ≤ 30 ∧ (0 : Int) ≤ 10 ∧
    (getBalance (wBridge false 1 100 0) "x").1 = Except.ok 100 ∧
    (checkCoinBalance (wBridge false 1 100 0) "x" (some 30) (some 10)).1 =
      Except.ok () ∧
    (getBalance (wBridge false 1 39 0) "x").1 = Except.ok 39 ∧
    (checkCoinBalance (wBridge false 1 39 0) "x" (some 30) (some 10)).1 =
      Except.error (Err.notEnoughCoinBalance 39 (some 30) (some 10)) ∧
    (30 : Int) + 10 = 40 := by
  refine ⟨by norm_num, by norm_num, rfl, ?_, rfl, ?_, by norm_num⟩
  · exact (claim_c7_balance_check (wBridge false 1 100 0) "x" 30 10 100
      (by norm_num) (by norm_num) rfl).1.mpr (by norm_num)
  · exact (claim_c7_balance_check (wBridge false 1 39 0) "x" 30 10 39
      (by norm_num) (by norm_num) rfl).2.1 (by norm_num)

/-- **C8 (amended).** After a successful pending-nonce fetch: on a
swap-direction build whose sender is the pair's custodial address, the nonce
is routed through the sequencer exactly once (one `adjust` event); a
non-custodial sender gets the raw fetched nonce; and a non-swap build always
gets the raw fetched nonce, even from the custodial sender. -/
theorem claim_c8_nonce_routing (b : Bridge) (pairID fromA : String)
    (st : SwapType) (n : Nat) (tr : List Event)
    (hfetch : retryRPC RPCOp.getPoolNonce (b.poolNonceRPC fromA) =
      (Except.ok n, tr)) :
    (∀ cfg, b.getTokenConfig pairID = some cfg → fromA = cfg.dcrmAddress →
       st ≠ SwapType.noSwap →
       getAccountNonce b pairID fromA st =
         (Except.ok (b.adjustNonce pairID n), tr ++ [Event.adjust pairID n]) ∧
       ((tr ++ [Event.adjust pairID n]).filter Event.isAdjust).length = 1) ∧
    ((∀ cfg, b.getTokenConfig pairID = some cfg → fromA ≠ cfg.dcrmAddress) →
       getAccountNonce b pairID fromA st = (Except.ok n, tr)) ∧
    (st = SwapType.noSwap →
       getAccountNonce b pairID fromA st = (Except.ok n, tr)) := by
  have htr0 : tr.filter Event.isAdjust = [] := by
    have h2 := congrArg Prod.snd hfetch
    dsimp only at h2
    rw [← h2]
    exact retryRPC_filter_adjust _ _
  refine ⟨?_, ?_, ?_⟩
  · intro cfg hcfg heqd hst
    constructor
    · unfold getAccountNonce
      rw [hfetch]
      try dsimp only
      rw [if_pos hst, hcfg]
      try dsimp only
      rw [if_pos heqd]
    · rw [List.filter_append, htr0]
      simp [Event.isAdjust]
  · intro hnc
    unfold getAccountNonce
    rw [hfetch]
    try dsimp only
    by_cases hst : st ≠ SwapType.noSwap
    · rw [if_pos hst]
      cases hc : b.getTokenConfig pairID with
      | none => rfl
      | some cfg =>
        try dsimp only
        rw [if_neg (hnc cfg hc)]
    · rw [if_neg hst]
  · intro hst
    unfold getAccountNonce
    rw [hfetch]
    try dsimp only
    rw [if_neg (by simp [hst])]

/-- **C8 counterexample.** The claim as stated covers every build intent with
an unset nonce, but a `None`-direction build from the custodial sender gets
the raw fetched nonce (7) with no sequencer call at all, although the
sequencer would have produced 107. -/
theorem claim_c8_counterexample :
    wBridgeDst.getTokenConfig "tok" = some wCfgTok ∧
    getAccountNonce wBridgeDst "tok" wCfgTok.dcrmAddress SwapType.noSwap =
      (Except.ok 7, [Event.rpc RPCOp.getPoolNonce 0]) ∧
    wBridgeDst.adjustNonce "tok" 7 = 107 ∧
    (List.filter Event.isAdjust [Event.rpc RPCOp.getPoolNonce 0]).length = 0 :=
  ⟨rfl, rfl, rfl, rfl⟩

/-- Witness for C8: custodial sender on a swap build is routed through the
sequencer exactly once; non-custodial sender gets the raw nonce. -/
theorem claim_c8_witness :
    retryRPC RPCOp.getPoolNonce
      (wBridgeDst.poolNonceRPC "00000000000000000000000000000000000000d1") =
      (Except.ok 7, [Event.rpc RPCOp.getPoolNonce 0]) ∧
    (getAccountNonce wBridgeDst "tok" "00000000000000000000000000000000000000d1"
        SwapType.swapin =
      (Except.ok (wBridgeDst.adjustNonce "tok" 7),
       [Event.rpc RPCOp.getPoolNonce 0] ++ [Event.adjust "tok" 7]) ∧
     (([Event.rpc RPCOp.getPoolNonce 0] ++ [Event.adjust "tok" 7]).filter
        Event.isAdjust).length = 1) ∧
    getAccountNonce wBridgeDst "tok" wArgs.fromAddr SwapType.swapin =
      (Except.ok 7, [Event.rpc RPCOp.getPoolNonce 0]) := by
  have h := claim_c8_nonce_routing wBridgeDst "tok"
    "00000000000000000000000000000000000000d1" SwapType.swapin 7
    [Event.rpc RPCOp.getPoolNonce 0] rfl
  have h2 := claim_c8_nonce_routing wBridgeDst "tok" wArgs.fromAddr
    SwapType.swapin 7 [Event.rpc RPCOp.getPoolNonce 0] rfl
  refine ⟨rfl, h.1 wCfgTok rfl rfl (by decide), h2.2.1 ?_⟩
  intro cfg hcfg
  have h4 : some wCfgTok = some cfg := hcfg
  injection h4 with h5
  subst h5
  decide

/-- **C9 (confirmed).** The retry policy shared by the balance, token-balance,
suggested-gas-price and pending-nonce RPC wrappers: a success at any attempt
returns that result immediately (the trace ends at that call), and when all
attempts fail, exactly `retryRPCCount = 3` calls are made, each followed by
the fixed one-second sleep with no backoff growth, and the error of the final
attempt is returned unmodified. -/
theorem claim_c9_retry_policy {α : Type} (op : RPCOp) (f : Nat → Except String α) :
    (∀ i v, i < retryRPCCount → (∀ j, j < i → ∃ e, f j = Except.error e) →
       f i = Except.ok v →
       retryRPC op f = (Except.ok v, failedAttempts op i ++ [Event.rpc op i])) ∧
    (∀ e0 e1 e2, f 0 = Except.error e0 → f 1 = Except.error e1 →
       f 2 = Except.error e2 →
       retryRPC op f =
         (Except.error e2,
          [Event.rpc op 0, Event.sleep retryRPCInterval, Event.rpc op 1,
           Event.sleep retryRPCInterval, Event.rpc op 2,
           Event.sleep retryRPCInterval])) ∧
    (∀ (b : Bridge) (acct : String),
       getBalance b acct = retryRPC RPCOp.getBalance (b.balanceRPC acct)) ∧
    (∀ (b : Bridge) (erc20Addr acct : String),
       getErc20Balance b erc20Addr acct =
         retryRPC RPCOp.getErc20Balance (b.erc20BalanceRPC erc20Addr acct)) ∧
    (∀ (b : Bridge), getGasPrice b = retryRPC RPCOp.suggestPrice b.suggestPriceRPC) := by
  refine ⟨?_, ?_, fun _ _ => rfl, fun _ _ _ => rfl, fun _ => rfl⟩
  · intro i v hi hfail hok
    have hi3 : i < 3 := hi
    interval_cases i
    · simp [retryRPC, retryRPCCount, retryGo, hok, failedAttempts]
    · obtain ⟨e0, he0⟩ := hfail 0 (by norm_num)
      simp [retryRPC, retryRPCCount, retryGo, he0, hok, failedAttempts]
    · obtain ⟨e0, he0⟩ := hfail 0 (by norm_num)
      obtain ⟨e1, he1⟩ := hfail 1 (by norm_num)
      simp [retryRPC, retryRPCCount, retryGo, he0, he1, hok, failedAttempts]
  · intro e0 e1 e2 h0 h1 h2
    simp [retryRPC, retryRPCCount, retryGo, h0, h1, h2]

/-- Witness for C9: a success at the second attempt returns immediately after
two calls and one sleep; an always-failing oracle makes exactly three calls,
each followed by the one-second sleep, and returns the final error. -/
theorem claim_c9_witness :
    (1 < retryRPCCount ∧ wF 1 = Except.ok 5 ∧
     retryRPC RPCOp.suggestPrice wF =
       (Except.ok 5, failedAttempts RPCOp.suggestPrice 1 ++
         [Event.rpc RPCOp.suggestPrice 1])) ∧
    (wFbad 0 = Except.error "down" ∧ wFbad 1 = Except.error "down" ∧
     wFbad 2 = Except.error "down" ∧
     retryRPC RPCOp.getBalance wFbad =
       (Except.error "down",
        [Event.rpc RPCOp.getBalance 0, Event.sleep retryRPCInterval,
         Event.rpc RPCOp.getBalance 1, Event.sleep retryRPCInterval,
         Event.rpc RPCOp.getBalance 2, Event.sleep retryRPCInterval])) := by
  constructor
  · refine ⟨by decide, rfl, ?_⟩
    exact (claim_c9_retry_policy RPCOp.suggestPrice wF).1 1 5 (by decide)
      (fun j hj => ⟨"boom", by interval_cases j; rfl⟩) rfl
  · exact ⟨rfl, rfl, rfl,
      (claim_c9_retry_policy RPCOp.getBalance wFbad).2.1 "down" "down" "down"
        rfl rfl rfl⟩

/-- Witness for C10 at a concrete successful native-coin swap-out build: the
caller supplied no value (defaulted 0), yet the transaction carries the
converter's out-of-destination amount 50. -/
theorem claim_c10_witness :
    wArgsCoin.input = none ∧
    wBridgeSrc.getTokenConfig wArgsCoin.pairID = some wCfgCoin ∧
    buildRawTransaction wBridgeSrc wArgsCoin = (Except.ok wTx10, wArgs10, wTr1) ∧
    wArgsCoin.swapType = SwapType.swapout ∧ wCfgCoin.isErc20 = false ∧
    wTx10.value =
      some (wBridgeSrc.calcSwappedValue wArgsCoin.pairID wArgsCoin.originValue false) ∧
    wTx10.value ≠ some (wArgsCoin.value.getD 0) := by
  have hok : buildRawTransaction wBridgeSrc wArgsCoin =
      (Except.ok wTx10, wArgs10, wTr1) := rfl
  have hmain := claim_c10_value_selection wBridgeSrc wArgsCoin wArgs10 wTr1 wTx10
    wCfgCoin rfl rfl hok
  exact ⟨rfl, rfl, hok, rfl, rfl, hmain.1 rfl rfl, by decide⟩

end Eth
